import Mathlib

/-!
Driver-monitoring pipeline: `selfdrive/modeld/models/dmonitoring.cc`

A shallow embedding of the single-frame driver-monitoring pipeline and the
properties its specification states about it.

Modelling conventions

* `float` values are elements of a field `F` (the rationals or the reals in the
  numeric theorems).  Every `float` operation of the source computes the exact
  result in `F` and passes it through the rounding function `fl`, a parameter of
  the embedding; `binary32_round` is the rounding of IEEE-754 binary32 (to
  nearest, ties to even, with gradual underflow).  Overflow to an infinity and
  NaN are not modelled: a value above the binary32 range keeps 24-bit precision.
  The library function `exp` is the parameter `exp`; the numeric theorems take
  the correctly rounded `fun x => binary32_round (Real.exp x)`.  The `double`
  quotient `(t2 - t1) / 1000.` is exact.
* C `int` values are elements of `ℤ` (signed overflow is undefined behaviour in
  the source, so the defined fragment is arithmetic in `ℤ`); `/` on `int` is
  the truncating `Int.tdiv`.
* Raw memory (`uint8_t*`, `float*`, `float[N]` state arrays, `std::vector`) is a
  `List`; every access through an index is bounds-checked and an out-of-bounds
  access (undefined behaviour in the source) makes the enclosing function
  return `none`.
* The `float[k]` members of `DriverStateResult` are functions `Fin k → F`.
* The external collaborators (the inference engine, the clock, the message
  builders, `libyuv::ByteToFloat`) appear as parameters or as small models
  whose doc comment says so.
-/

namespace DMonitoring

/-! ## Constants -/

/-- Source constant `constexpr int MODEL_WIDTH = 1440;`. -/
def MODEL_WIDTH : Nat := 1440

/-- Source constant `constexpr int MODEL_HEIGHT = 960;`. -/
def MODEL_HEIGHT : Nat := 960

/-- Modelled from the spec: `OUTPUT_SIZE` is declared in `dmonitoring.h`, which is
not part of the sources; the spec fixes the model output vector at 84 floats. -/
def OUTPUT_SIZE : Nat := 84

/-! ## Memory and control primitives -/

/-- Bounds-checked read `p[i]` with an `int` index. -/
def load {α : Type} (mem : List α) (i : Int) : Option α :=
  if i < 0 then none else mem[i.toNat]?

/-- Bounds-checked write `p[i] = v` with an `int` index. -/
def store {α : Type} (mem : List α) (i : Int) (v : α) : Option (List α) :=
  if i < 0 then none
  else if i.toNat < mem.length then some (mem.set i.toNat v) else none

/-- Write `a[i] = v` into a fixed-size array member. -/
def setElem {α : Type} {k : Nat} (a : Fin k → α) (i : Nat) (v : α) : Option (Fin k → α) :=
  if h : i < k then some (Function.update a ⟨i, h⟩ v) else none

/-- The loop `for (int i = 0; i < n; ++i) body(i)`: `forLoop body n s` runs the
iterations `0, 1, …, n-1` in this order from state `s`. -/
def forLoop {σ : Type} (body : Nat → σ → Option σ) : Nat → σ → Option σ
  | 0, s => some s
  | n + 1, s => (forLoop body n s).bind (body n)

/-- The template `get_buffer`: grows the vector to `size` (new elements are
value-initialised) when it is shorter, and hands back its storage. -/
def get_buffer {α : Type} [Zero α] (buf : List α) (size : Nat) : List α :=
  if buf.length < size then buf ++ List.replicate (size - buf.length) 0 else buf

/-! ## Rounding of binary32 -/

/-- Round a non-negative number to the nearest integer, ties to the even one. -/
def round_half_even {F : Type} [LinearOrderedField F] [FloorRing F] (q : F) : Int :=
  if q - (⌊q⌋ : F) < 1 / 2 then ⌊q⌋
  else if 1 / 2 < q - (⌊q⌋ : F) then ⌊q⌋ + 1
  else if ⌊q⌋ % 2 = 0 then ⌊q⌋ else ⌊q⌋ + 1

/-- The binary exponent of the binary32 grid at a magnitude `a`: `⌊log₂ a⌋`, and
`-126` in the subnormal range. -/
def binary32_exponent {F : Type} [LinearOrderedField F] [FloorRing F] (a : F) : Int :=
  max (Int.log 2 a) (-126)

/-- The binary32 number nearest to a magnitude `a ≥ 0`: `a` rounded to a multiple
of the grid step `2 ^ (exponent - 23)`. -/
def binary32_round_abs {F : Type} [LinearOrderedField F] [FloorRing F] (a : F) : F :=
  (round_half_even (a / (2 : F) ^ (binary32_exponent a - 23)) : F)
    * (2 : F) ^ (binary32_exponent a - 23)

/-- IEEE-754 binary32 rounding to nearest, ties to even, of an exact value
(symmetric in the sign; overflow to an infinity is not modelled). -/
def binary32_round {F : Type} [LinearOrderedField F] [FloorRing F] (x : F) : F :=
  if x < 0 then -binary32_round_abs (-x) else binary32_round_abs x

/-! ## Numeric helpers declared outside the sources -/

/-- Modelled from the spec: `sigmoid` is declared in a header that is not part of
the sources; the spec fixes it as `sigmoid(x) = 1/(1+exp(−x))`.  As `float`
code the sum and the quotient are rounded (`fl`); the negation is exact. -/
def sigmoid {F : Type} [Field F] (fl exp : F → F) (input : F) : F :=
  fl (1 / fl (1 + exp (-input)))

/-- Modelled from the spec: `libyuv::ByteToFloat(src, dst, scale, width)` is the
external byte→float primitive; it writes `dst[i] = src[i] * scale` for
`i = 0 … width-1`, the byte converted exactly and the `float` product rounded
(`fl`).  Here `src` and `dst` are the enclosing buffers and
`src_off`, `dst_off` the positions the two pointers point at. -/
def ByteToFloat {F : Type} [Field F] (fl : F → F) (src : List (Fin 256)) (src_off : Int)
    (dst : List F) (dst_off : Int) (scale : F) (width : Nat) : Option (List F) :=
  forLoop (fun i d => do
    let b ← load src (src_off + i)
    store d (dst_off + i) (fl ((b.val : F) * scale))) width dst

/-! ## Data model -/

/-- Modelled from the spec: the struct `DriverStateResult` is declared in
`dmonitoring.h`; its members are the ones `parse_driver_data` writes, with the
array lengths of the loops that fill them. -/
structure DriverStateResult (F : Type) where
  face_orientation : Fin 3 → F
  face_position : Fin 2 → F
  face_orientation_std : Fin 3 → F
  face_position_std : Fin 2 → F
  face_prob : F
  left_eye_prob : F
  right_eye_prob : F
  left_blink_prob : F
  right_blink_prob : F
  sunglasses_prob : F
  occluded_prob : F
  ready_prob : Fin 4 → F
  not_ready_prob : Fin 2 → F

/-- Modelled from the spec: the struct `DMonitoringModelResult` of
`dmonitoring.h`, with the members `dmonitoring_eval_frame` writes. -/
structure DMonitoringModelResult (F : Type) where
  driver_state_lhd : DriverStateResult F
  driver_state_rhd : DriverStateResult F
  poor_vision : F
  wheel_on_right : F
  dsp_execution_time : F

/-- The registrations held by the engine object `s->m`: the length given to
`addCalib` and the length given to the last `addImage`. -/
structure RunModel where
  calib_len : Nat
  image_len : Nat

/-- Modelled from the spec: the struct `DMonitoringModelState` of
`dmonitoring.h`, with the members the source touches. -/
structure DMonitoringModelState (F : Type) where
  is_rhd : Bool
  net_input_buf : List F
  calib : List F
  output : List F
  m : RunModel

/-- What the engine sees when `execute()` runs: the tensor staged by `addImage`
and the calibration storage registered by `addCalib`. -/
structure EngineInput (F : Type) where
  image : List F
  calib : List F

/-- The zero-initialised record `DriverStateResult ds = {0}`. -/
def DriverStateResult.zero {F : Type} [Field F] : DriverStateResult F where
  face_orientation := fun _ => 0
  face_position := fun _ => 0
  face_orientation_std := fun _ => 0
  face_position_std := fun _ => 0
  face_prob := 0
  left_eye_prob := 0
  right_eye_prob := 0
  left_blink_prob := 0
  right_blink_prob := 0
  sunglasses_prob := 0
  occluded_prob := 0
  ready_prob := fun _ => 0
  not_ready_prob := fun _ => 0

/-- The zero-initialised record `DMonitoringModelResult model_res = {0}`. -/
def DMonitoringModelResult.zero {F : Type} [Field F] : DMonitoringModelResult F where
  driver_state_lhd := DriverStateResult.zero
  driver_state_rhd := DriverStateResult.zero
  poor_vision := 0
  wheel_on_right := 0
  dsp_execution_time := 0

/-! ## `dmonitoring_init` -/

/-- Source function `dmonitoring_init`: reads the `IsRHD` parameter, creates the
engine bound to `s->output` and registers the calibration storage with length
`CALIB_LEN`. -/
def dmonitoring_init {F : Type} (CALIB_LEN : Nat) (IsRHD : Bool)
    (s : DMonitoringModelState F) : DMonitoringModelState F :=
  { s with is_rhd := IsRHD, m := { calib_len := CALIB_LEN, image_len := 0 } }

/-! ## `parse_driver_data` -/

/-- Source function `parse_driver_data`: decodes the block of `output` that
starts at `out_idx_offset` into `ds_res`. -/
def parse_driver_data {F : Type} [Field F] (REG_SCALE : F) (fl exp : F → F)
    (ds_res : DriverStateResult F) (output : List F) (out_idx_offset : Int) :
    Option (DriverStateResult F) := do
  let ds ← forLoop (fun i ds => do
    let a ← load output (out_idx_offset + i)
    let fo ← setElem ds.face_orientation i (fl (a * REG_SCALE))
    let b ← load output (out_idx_offset + 6 + i)
    let fs ← setElem ds.face_orientation_std i (exp b)
    pure { ds with face_orientation := fo, face_orientation_std := fs }) 3 ds_res
  let ds ← forLoop (fun i ds => do
    let a ← load output (out_idx_offset + 3 + i)
    let fp ← setElem ds.face_position i (fl (a * REG_SCALE))
    let b ← load output (out_idx_offset + 9 + i)
    let fs ← setElem ds.face_position_std i (exp b)
    pure { ds with face_position := fp, face_position_std := fs }) 2 ds
  let ds ← forLoop (fun i ds => do
    let a ← load output (out_idx_offset + 35 + i)
    let rp ← setElem ds.ready_prob i (sigmoid fl exp a)
    pure { ds with ready_prob := rp }) 4 ds
  let ds ← forLoop (fun i ds => do
    let a ← load output (out_idx_offset + 39 + i)
    let np ← setElem ds.not_ready_prob i (sigmoid fl exp a)
    pure { ds with not_ready_prob := np }) 2 ds
  let x12 ← load output (out_idx_offset + 12)
  let ds := { ds with face_prob := sigmoid fl exp x12 }
  let x21 ← load output (out_idx_offset + 21)
  let ds := { ds with left_eye_prob := sigmoid fl exp x21 }
  let x30 ← load output (out_idx_offset + 30)
  let ds := { ds with right_eye_prob := sigmoid fl exp x30 }
  let x31 ← load output (out_idx_offset + 31)
  let ds := { ds with left_blink_prob := sigmoid fl exp x31 }
  let x32 ← load output (out_idx_offset + 32)
  let ds := { ds with right_blink_prob := sigmoid fl exp x32 }
  let x33 ← load output (out_idx_offset + 33)
  let ds := { ds with sunglasses_prob := sigmoid fl exp x33 }
  let x34 ← load output (out_idx_offset + 34)
  pure { ds with occluded_prob := sigmoid fl exp x34 }

/-! ## `fill_driver_data` and `dmonitoring_publish` -/

/-- Modelled from the spec: the outbound `DriverData` record of the message
schema (generated code, not part of the sources); list fields are the
schema's float lists. -/
structure DriverData (F : Type) where
  faceOrientation : List F
  faceOrientationStd : List F
  facePosition : List F
  facePositionStd : List F
  faceProb : F
  leftEyeProb : F
  rightEyeProb : F
  leftBlinkProb : F
  rightBlinkProb : F
  sunglassesProb : F
  occludedProb : F
  readyProb : List F
  notReadyProb : List F

/-- Modelled from the spec: the outbound `DriverState` message of the schema
(generated code, not part of the sources).  A field that was never set holds
its default; the byte field `rawPredictions` is `none` until it is set. -/
structure DriverState (F : Type) where
  frameId : Nat
  modelExecutionTime : F
  dspExecutionTime : F
  poorVision : F
  wheelOnRight : F
  driverDataLH : DriverData F
  driverDataRH : DriverData F
  rawPredictions : Option (List (Fin 256))

/-- A freshly initialised `DriverData` builder (`initDriverDataLH()`,
`initDriverDataRH()`). -/
def DriverData.init {F : Type} [Field F] : DriverData F where
  faceOrientation := []
  faceOrientationStd := []
  facePosition := []
  facePositionStd := []
  faceProb := 0
  leftEyeProb := 0
  rightEyeProb := 0
  leftBlinkProb := 0
  rightBlinkProb := 0
  sunglassesProb := 0
  occludedProb := 0
  readyProb := []
  notReadyProb := []

/-- A freshly initialised `DriverState` builder (`msg.initEvent().initDriverState()`). -/
def DriverState.init {F : Type} [Field F] : DriverState F where
  frameId := 0
  modelExecutionTime := 0
  dspExecutionTime := 0
  poorVision := 0
  wheelOnRight := 0
  driverDataLH := DriverData.init
  driverDataRH := DriverData.init
  rawPredictions := none

/-- Source function `fill_driver_data`: thirteen setter calls, in source order. -/
def fill_driver_data {F : Type} (ddata : DriverData F) (ds_res : DriverStateResult F) :
    DriverData F :=
  let ddata := { ddata with faceOrientation := List.ofFn ds_res.face_orientation }
  let ddata := { ddata with faceOrientationStd := List.ofFn ds_res.face_orientation_std }
  let ddata := { ddata with facePosition := List.ofFn ds_res.face_position }
  let ddata := { ddata with facePositionStd := List.ofFn ds_res.face_position_std }
  let ddata := { ddata with faceProb := ds_res.face_prob }
  let ddata := { ddata with leftEyeProb := ds_res.left_eye_prob }
  let ddata := { ddata with rightEyeProb := ds_res.right_eye_prob }
  let ddata := { ddata with leftBlinkProb := ds_res.left_blink_prob }
  let ddata := { ddata with rightBlinkProb := ds_res.right_blink_prob }
  let ddata := { ddata with sunglassesProb := ds_res.sunglasses_prob }
  let ddata := { ddata with occludedProb := ds_res.occluded_prob }
  let ddata := { ddata with readyProb := List.ofFn ds_res.ready_prob }
  { ddata with notReadyProb := List.ofFn ds_res.not_ready_prob }

/-- The call `raw_pred.asBytes()`: the floats of the array viewed as bytes, four
per float; `bytes_of` is the (unmodelled) byte representation of one float. -/
def asBytes {F : Type} (bytes_of : F → Fin 4 → Fin 256) (raw_pred : List F) :
    List (Fin 256) :=
  raw_pred.flatMap (fun x => List.ofFn (bytes_of x))

/-- Source function `dmonitoring_publish`: builds the message and hands it to
`pm.send` under the channel name; the result is the channel and the message
sent.  `send_raw_pred` is the export flag declared outside the sources. -/
def dmonitoring_publish {F : Type} [Field F] (send_raw_pred : Bool)
    (bytes_of : F → Fin 4 → Fin 256) (frame_id : Nat)
    (model_res : DMonitoringModelResult F) (execution_time : F) (raw_pred : List F) :
    String × DriverState F :=
  let framed : DriverState F := DriverState.init
  let framed := { framed with frameId := frame_id }
  let framed := { framed with modelExecutionTime := execution_time }
  let framed := { framed with dspExecutionTime := model_res.dsp_execution_time }
  let framed := { framed with poorVision := model_res.poor_vision }
  let framed := { framed with wheelOnRight := model_res.wheel_on_right }
  let framed := { framed with
    driverDataLH := fill_driver_data DriverData.init model_res.driver_state_lhd }
  let framed := { framed with
    driverDataRH := fill_driver_data DriverData.init model_res.driver_state_rhd }
  let framed :=
    if send_raw_pred then { framed with rawPredictions := some (asBytes bytes_of raw_pred) }
    else framed
  ("driverState", framed)

/-! ## `dmonitoring_eval_frame` -/

/-- The tensor and calibration the engine reads at `execute()`, given the
registrations in `s.m`. -/
def engine_input {F : Type} (s : DMonitoringModelState F) : EngineInput F where
  image := s.net_input_buf.take s.m.image_len
  calib := s.calib.take s.m.calib_len

/-- Lines 75–89 of `dmonitoring_eval_frame`: crop offsets, scratch buffer and the
row loop that converts the cropped luma window into the tensor. -/
def dmonitoring_preprocess {F : Type} [Field F] (fl : F → F) (net_input_buf : List F)
    (stream_buf : List (Fin 256)) (width height stride : Int) : Option (List F) :=
  let v_off : Int := height - MODEL_HEIGHT
  let h_off : Int := (width - MODEL_WIDTH).tdiv 2
  let yuv_buf_len : Nat := MODEL_WIDTH * MODEL_HEIGHT
  let raw_y_start : Int := stride * v_off
  let buf := get_buffer net_input_buf yuv_buf_len
  forLoop (fun r buf =>
    ByteToFloat fl stream_buf (raw_y_start + r * stride + h_off) buf (r * MODEL_WIDTH)
      (fl (3921569 / 1000000000)) MODEL_WIDTH) MODEL_HEIGHT buf

/-- Lines 75–106 of `dmonitoring_eval_frame`: everything up to the call of
`execute()`: preprocessing, `addImage`, and the calibration copy loop.  The
result is the pipeline state at the moment `execute()` is called. -/
def dmonitoring_stage {F : Type} [Field F] (fl : F → F) (CALIB_LEN : Nat)
    (s : DMonitoringModelState F) (stream_buf : List (Fin 256)) (width height stride : Int)
    (calib : List F) : Option (DMonitoringModelState F) := do
  let buf ← dmonitoring_preprocess fl s.net_input_buf stream_buf width height stride
  let s := { s with net_input_buf := buf }
  let s := { s with m := { s.m with image_len := MODEL_WIDTH * MODEL_HEIGHT } }
  let cal ← forLoop (fun i c => do
    let x ← load calib i
    store c i x) CALIB_LEN s.calib
  pure { s with calib := cal }

/-- Lines 110–115 of `dmonitoring_eval_frame`: decoding of the output vector into
the result record; `t1`, `t2` are the two clock readings. -/
def dmonitoring_decode {F : Type} [Field F] (REG_SCALE : F) (fl exp : F → F)
    (output : List F) (t1 t2 : F) : Option (DMonitoringModelResult F) := do
  let model_res : DMonitoringModelResult F := DMonitoringModelResult.zero
  let lhd ← parse_driver_data REG_SCALE fl exp model_res.driver_state_lhd output 0
  let model_res := { model_res with driver_state_lhd := lhd }
  let rhd ← parse_driver_data REG_SCALE fl exp model_res.driver_state_rhd output 41
  let model_res := { model_res with driver_state_rhd := rhd }
  let x82 ← load output 82
  let model_res := { model_res with poor_vision := sigmoid fl exp x82 }
  let x83 ← load output 83
  let model_res := { model_res with wheel_on_right := sigmoid fl exp x83 }
  pure { model_res with dsp_execution_time := (t2 - t1) / 1000 }

/-- Source function `dmonitoring_eval_frame`.  `execute` is the engine's forward
pass (it overwrites the output vector), `t1` and `t2` the readings of
`millis_since_boot()`; `uv_offset` is accepted and unused, as in the source.
The result is the returned record together with the updated state. -/
def dmonitoring_eval_frame {F : Type} [Field F] (CALIB_LEN : Nat) (REG_SCALE : F)
    (fl exp : F → F) (execute : EngineInput F → List F) (t1 t2 : F)
    (s : DMonitoringModelState F) (stream_buf : List (Fin 256))
    (width height stride _uv_offset : Int) (calib : List F) :
    Option (DMonitoringModelResult F × DMonitoringModelState F) := do
  let s ← dmonitoring_stage fl CALIB_LEN s stream_buf width height stride calib
  let s := { s with output := execute (engine_input s) }
  let model_res ← dmonitoring_decode REG_SCALE fl exp s.output t1 t2
  pure (model_res, s)

/-- The arguments of one call of `dmonitoring_eval_frame`, with the clock
readings taken during the call. -/
structure FrameCall (F : Type) where
  stream_buf : List (Fin 256)
  width : Int
  height : Int
  stride : Int
  uv_offset : Int
  calib : List F
  t1 : F
  t2 : F

/-- A sequence of `dmonitoring_eval_frame` calls on one pipeline state; the
result is the state after the last call. -/
def eval_frames {F : Type} [Field F] (CALIB_LEN : Nat) (REG_SCALE : F) (fl exp : F → F)
    (execute : EngineInput F → List F) :
    DMonitoringModelState F → List (FrameCall F) → Option (DMonitoringModelState F)
  | s, [] => some s
  | s, c :: cs =>
    (dmonitoring_eval_frame CALIB_LEN REG_SCALE fl exp execute c.t1 c.t2 s c.stream_buf
      c.width c.height c.stride c.uv_offset c.calib).bind
      (fun r => eval_frames CALIB_LEN REG_SCALE fl exp execute r.2 cs)

/-! ## The decode table of the specification -/

/-- The block-relative raw indices listed in the decode table of the spec (§4.3):
`0..2`, `3..4`, `6..8`, `9..10`, `12`, `21`, `30..34`, `35..38`, `39..40`. -/
def decode_indices : List Nat :=
  [0, 1, 2, 3, 4, 6, 7, 8, 9, 10, 12, 21, 30, 31, 32, 33, 34, 35, 36, 37, 38, 39, 40]

/-- The record the decode table of the spec (§4.3) prescribes for the block of `V`
at offset `o`; `V.getD k 0` is `V[k]` for `k` inside the vector. -/
def index_table {F : Type} [Field F] (REG_SCALE : F) (fl exp : F → F) (V : List F) (o : Nat) :
    DriverStateResult F where
  face_orientation :=
    ![fl (V.getD o 0 * REG_SCALE), fl (V.getD (o + 1) 0 * REG_SCALE), fl (V.getD (o + 2) 0 * REG_SCALE)]
  face_position := ![fl (V.getD (o + 3) 0 * REG_SCALE), fl (V.getD (o + 4) 0 * REG_SCALE)]
  face_orientation_std :=
    ![exp (V.getD (o + 6) 0), exp (V.getD (o + 7) 0), exp (V.getD (o + 8) 0)]
  face_position_std := ![exp (V.getD (o + 9) 0), exp (V.getD (o + 10) 0)]
  face_prob := sigmoid fl exp (V.getD (o + 12) 0)
  left_eye_prob := sigmoid fl exp (V.getD (o + 21) 0)
  right_eye_prob := sigmoid fl exp (V.getD (o + 30) 0)
  left_blink_prob := sigmoid fl exp (V.getD (o + 31) 0)
  right_blink_prob := sigmoid fl exp (V.getD (o + 32) 0)
  sunglasses_prob := sigmoid fl exp (V.getD (o + 33) 0)
  occluded_prob := sigmoid fl exp (V.getD (o + 34) 0)
  ready_prob :=
    ![sigmoid fl exp (V.getD (o + 35) 0), sigmoid fl exp (V.getD (o + 36) 0),
      sigmoid fl exp (V.getD (o + 37) 0), sigmoid fl exp (V.getD (o + 38) 0)]
  not_ready_prob :=
    ![sigmoid fl exp (V.getD (o + 39) 0), sigmoid fl exp (V.getD (o + 40) 0)]

/-- The range statement of the spec for one decoded block: every probability lies
strictly between 0 and 1 and every standard deviation is strictly positive. -/
def probabilities_in_range {F : Type} [LinearOrderedField F] (ds : DriverStateResult F) : Prop :=
  (0 < ds.face_prob ∧ ds.face_prob < 1) ∧
  (0 < ds.left_eye_prob ∧ ds.left_eye_prob < 1) ∧
  (0 < ds.right_eye_prob ∧ ds.right_eye_prob < 1) ∧
  (0 < ds.left_blink_prob ∧ ds.left_blink_prob < 1) ∧
  (0 < ds.right_blink_prob ∧ ds.right_blink_prob < 1) ∧
  (0 < ds.sunglasses_prob ∧ ds.sunglasses_prob < 1) ∧
  (0 < ds.occluded_prob ∧ ds.occluded_prob < 1) ∧
  (∀ i : Fin 4, 0 < ds.ready_prob i ∧ ds.ready_prob i < 1) ∧
  (∀ i : Fin 2, 0 < ds.not_ready_prob i ∧ ds.not_ready_prob i < 1) ∧
  (∀ i : Fin 3, 0 < ds.face_orientation_std i) ∧
  (∀ i : Fin 2, 0 < ds.face_position_std i)

/-- The range statement that survives rounding: every probability lies in the
closed interval `[0, 1]` and every standard deviation is non-negative. -/
def probabilities_in_closed_range {F : Type} [LinearOrderedField F] (ds : DriverStateResult F) :
    Prop :=
  (0 ≤ ds.face_prob ∧ ds.face_prob ≤ 1) ∧
  (0 ≤ ds.left_eye_prob ∧ ds.left_eye_prob ≤ 1) ∧
  (0 ≤ ds.right_eye_prob ∧ ds.right_eye_prob ≤ 1) ∧
  (0 ≤ ds.left_blink_prob ∧ ds.left_blink_prob ≤ 1) ∧
  (0 ≤ ds.right_blink_prob ∧ ds.right_blink_prob ≤ 1) ∧
  (0 ≤ ds.sunglasses_prob ∧ ds.sunglasses_prob ≤ 1) ∧
  (0 ≤ ds.occluded_prob ∧ ds.occluded_prob ≤ 1) ∧
  (∀ i : Fin 4, 0 ≤ ds.ready_prob i ∧ ds.ready_prob i ≤ 1) ∧
  (∀ i : Fin 2, 0 ≤ ds.not_ready_prob i ∧ ds.not_ready_prob i ≤ 1) ∧
  (∀ i : Fin 3, 0 ≤ ds.face_orientation_std i) ∧
  (∀ i : Fin 2, 0 ≤ ds.face_position_std i)

/-! ## Crop offsets, read sets and the event order of a call -/

/-- Line 75 of `dmonitoring_eval_frame`: `int v_off = height - MODEL_HEIGHT;`. -/
def v_off (height : Int) : Int := height - MODEL_HEIGHT

/-- Line 76 of `dmonitoring_eval_frame`: `int h_off = (width - MODEL_WIDTH) / 2;`
with the truncating division of C++. -/
def h_off (width : Int) : Int := (width - MODEL_WIDTH).tdiv 2

/-- The indices of the output vector that `parse_driver_data` reads for block
offset `o`: the offset plus each index of the decode table. -/
def parse_driver_data_reads (o : Int) : List Int :=
  decode_indices.map (fun (k : Nat) => o + (k : Int))

/-- The indices of the output vector read by lines 110–114 of
`dmonitoring_eval_frame`: both blocks and the two shared scalars. -/
def dmonitoring_decode_reads : List Int :=
  parse_driver_data_reads 0 ++ parse_driver_data_reads 41 ++ [82, 83]

/-- The observable steps of lines 102–108 of `dmonitoring_eval_frame`: a reading
of the clock, the staging call `addImage`, one write `s->calib[i] = calib[i]`, and
the call `execute()`. -/
inductive Event where
  | millis_since_boot : Event
  | addImage : Nat → Event
  | calib_write : Nat → Event
  | execute : Event
  deriving DecidableEq

/-- The order in which lines 102–108 of `dmonitoring_eval_frame` perform their
steps: `t1 = millis_since_boot()`, `addImage(net_input_buf, yuv_buf_len)`, the
calibration copy loop, `execute()`, `t2 = millis_since_boot()`. -/
def dmonitoring_eval_frame_events (CALIB_LEN : Nat) : List Event :=
  let tr : List Event := [Event.millis_since_boot]
  let tr := tr ++ [Event.addImage (MODEL_WIDTH * MODEL_HEIGHT)]
  let tr := (List.range CALIB_LEN).foldl (fun tr i => tr ++ [Event.calib_write i]) tr
  let tr := tr ++ [Event.execute]
  tr ++ [Event.millis_since_boot]

/-- Whether `b` is the step performed immediately after `a` somewhere in the trace. -/
def immediately_followed (a b : Event) : List Event → Bool
  | [] => false
  | [_] => false
  | x :: y :: rest => (decide (x = a) && decide (y = b)) || immediately_followed a b (y :: rest)

/-! ## Basic facts about the memory primitives -/

theorem load_natCast {α : Type} (mem : List α) (n : Nat) : load mem (n : Int) = mem[n]? := by
  simp [load]

theorem load_eq_getD {F : Type} [Zero F] (V : List F) (i : Int) (n : Nat) (hi : i = (n : Int))
    (h : n < V.length) : load V i = some (V.getD n 0) := by
  subst hi
  rw [load_natCast, List.getD_eq_getElem?_getD, List.getElem?_eq_getElem h]
  rfl

theorem update_fin2 {α : Type} (f : Fin 2 → α) (a b : α) (h0 : 0 < 2) (h1 : 1 < 2) :
    Function.update (Function.update f ⟨0, h0⟩ a) ⟨1, h1⟩ b = ![a, b] := by
  funext i
  fin_cases i <;> simp [Function.update]

theorem update_fin3 {α : Type} (f : Fin 3 → α) (a b c : α) (h0 : 0 < 3) (h1 : 1 < 3)
    (h2 : 2 < 3) :
    Function.update (Function.update (Function.update f ⟨0, h0⟩ a) ⟨1, h1⟩ b) ⟨2, h2⟩ c
      = ![a, b, c] := by
  funext i
  fin_cases i <;> simp [Function.update]

theorem update_fin4 {α : Type} (f : Fin 4 → α) (a b c d : α) (h0 : 0 < 4) (h1 : 1 < 4)
    (h2 : 2 < 4) (h3 : 3 < 4) :
    Function.update (Function.update (Function.update (Function.update f ⟨0, h0⟩ a) ⟨1, h1⟩ b)
      ⟨2, h2⟩ c) ⟨3, h3⟩ d = ![a, b, c, d] := by
  funext i
  fin_cases i <;> simp [Function.update]

/-- In-bounds decoding returns the record of the decode table. -/
theorem parse_driver_data_some {F : Type} [Field F] (REG_SCALE : F) (fl exp : F → F)
    (ds_res : DriverStateResult F) (V : List F) (o : Nat) (hV : o + 41 ≤ V.length) :
    parse_driver_data REG_SCALE fl exp ds_res V o = some (index_table REG_SCALE fl exp V o) := by
  have L : ∀ k : Nat, k < 41 → ∀ i : Int, i = (o : Int) + (k : Int) →
      load V i = some (V.getD (o + k) 0) :=
    fun k hk i hi => load_eq_getD V i (o + k) (by rw [hi]; push_cast; rfl) (by omega)
  have h0 : load V (o : Int) = some (V.getD o 0) := load_eq_getD V _ o rfl (by omega)
  have h1 : load V ((o : Int) + 1) = some (V.getD (o + 1) 0) := L 1 (by omega) _ rfl
  have h2 : load V ((o : Int) + 2) = some (V.getD (o + 2) 0) := L 2 (by omega) _ rfl
  have h3 : load V ((o : Int) + 3) = some (V.getD (o + 3) 0) := L 3 (by omega) _ rfl
  have h4 : load V ((o : Int) + 4) = some (V.getD (o + 4) 0) := L 4 (by omega) _ rfl
  have h6 : load V ((o : Int) + 6) = some (V.getD (o + 6) 0) := L 6 (by omega) _ rfl
  have h7 : load V ((o : Int) + 7) = some (V.getD (o + 7) 0) := L 7 (by omega) _ rfl
  have h8 : load V ((o : Int) + 8) = some (V.getD (o + 8) 0) := L 8 (by omega) _ rfl
  have h9 : load V ((o : Int) + 9) = some (V.getD (o + 9) 0) := L 9 (by omega) _ rfl
  have h10 : load V ((o : Int) + 10) = some (V.getD (o + 10) 0) := L 10 (by omega) _ rfl
  have h12 : load V ((o : Int) + 12) = some (V.getD (o + 12) 0) := L 12 (by omega) _ rfl
  have h21 : load V ((o : Int) + 21) = some (V.getD (o + 21) 0) := L 21 (by omega) _ rfl
  have h30 : load V ((o : Int) + 30) = some (V.getD (o + 30) 0) := L 30 (by omega) _ rfl
  have h31 : load V ((o : Int) + 31) = some (V.getD (o + 31) 0) := L 31 (by omega) _ rfl
  have h32 : load V ((o : Int) + 32) = some (V.getD (o + 32) 0) := L 32 (by omega) _ rfl
  have h33 : load V ((o : Int) + 33) = some (V.getD (o + 33) 0) := L 33 (by omega) _ rfl
  have h34 : load V ((o : Int) + 34) = some (V.getD (o + 34) 0) := L 34 (by omega) _ rfl
  have h35 : load V ((o : Int) + 35) = some (V.getD (o + 35) 0) := L 35 (by omega) _ rfl
  have h36 : load V ((o : Int) + 36) = some (V.getD (o + 36) 0) := L 36 (by omega) _ rfl
  have h37 : load V ((o : Int) + 37) = some (V.getD (o + 37) 0) := L 37 (by omega) _ rfl
  have h38 : load V ((o : Int) + 38) = some (V.getD (o + 38) 0) := L 38 (by omega) _ rfl
  have h39 : load V ((o : Int) + 39) = some (V.getD (o + 39) 0) := L 39 (by omega) _ rfl
  have h40 : load V ((o : Int) + 40) = some (V.getD (o + 40) 0) := L 40 (by omega) _ rfl
  simp only [parse_driver_data, forLoop, Option.bind_eq_bind, Option.some_bind, bind, pure]
  simp only [Nat.cast_zero, Nat.cast_one, Nat.cast_ofNat, add_zero, zero_add, Nat.cast_add,
    add_assoc]
  norm_num only
  simp only [h0, h1, h2, h3, h4, h6, h7, h8, h9, h10, h12, h21, h30, h31, h32, h33, h34, h35, h36, h37, h38, h39, h40,
    Option.some_bind, setElem]
  simp only [Nat.ofNat_pos, Nat.one_lt_ofNat, Nat.lt_add_one, dite_true, Option.some_bind,
    show (1 : Nat) < 3 by decide, show (2 : Nat) < 3 by decide, show (1 : Nat) < 2 by decide,
    show (1 : Nat) < 4 by decide, show (2 : Nat) < 4 by decide, show (3 : Nat) < 4 by decide,
    show (0 : Nat) < 4 by decide, show (0 : Nat) < 3 by decide, show (0 : Nat) < 2 by decide]
  simp only [update_fin2, update_fin3, update_fin4, index_table]

/-- Decoding depends on the output vector only through the reads at the indices of
the decode table. -/
theorem parse_driver_data_congr {F : Type} [Field F] (REG_SCALE : F) (fl exp : F → F)
    (ds_res : DriverStateResult F) (V V2 : List F) (o o2 : Int)
    (H : ∀ k : Nat, k ∈ decode_indices → load V (o + (k : Int)) = load V2 (o2 + (k : Int))) :
    parse_driver_data REG_SCALE fl exp ds_res V o = parse_driver_data REG_SCALE fl exp ds_res V2 o2 := by
  have h0 : load V o = load V2 o2 := by simpa using H 0 (by decide)
  have h1 : load V (o + 1) = load V2 (o2 + 1) := H 1 (by decide)
  have h2 : load V (o + 2) = load V2 (o2 + 2) := H 2 (by decide)
  have h3 : load V (o + 3) = load V2 (o2 + 3) := H 3 (by decide)
  have h4 : load V (o + 4) = load V2 (o2 + 4) := H 4 (by decide)
  have h6 : load V (o + 6) = load V2 (o2 + 6) := H 6 (by decide)
  have h7 : load V (o + 7) = load V2 (o2 + 7) := H 7 (by decide)
  have h8 : load V (o + 8) = load V2 (o2 + 8) := H 8 (by decide)
  have h9 : load V (o + 9) = load V2 (o2 + 9) := H 9 (by decide)
  have h10 : load V (o + 10) = load V2 (o2 + 10) := H 10 (by decide)
  have h12 : load V (o + 12) = load V2 (o2 + 12) := H 12 (by decide)
  have h21 : load V (o + 21) = load V2 (o2 + 21) := H 21 (by decide)
  have h30 : load V (o + 30) = load V2 (o2 + 30) := H 30 (by decide)
  have h31 : load V (o + 31) = load V2 (o2 + 31) := H 31 (by decide)
  have h32 : load V (o + 32) = load V2 (o2 + 32) := H 32 (by decide)
  have h33 : load V (o + 33) = load V2 (o2 + 33) := H 33 (by decide)
  have h34 : load V (o + 34) = load V2 (o2 + 34) := H 34 (by decide)
  have h35 : load V (o + 35) = load V2 (o2 + 35) := H 35 (by decide)
  have h36 : load V (o + 36) = load V2 (o2 + 36) := H 36 (by decide)
  have h37 : load V (o + 37) = load V2 (o2 + 37) := H 37 (by decide)
  have h38 : load V (o + 38) = load V2 (o2 + 38) := H 38 (by decide)
  have h39 : load V (o + 39) = load V2 (o2 + 39) := H 39 (by decide)
  have h40 : load V (o + 40) = load V2 (o2 + 40) := H 40 (by decide)
  simp only [parse_driver_data, forLoop, Option.bind_eq_bind, Option.some_bind, bind, pure]
  simp only [Nat.cast_zero, Nat.cast_one, Nat.cast_ofNat, add_zero, zero_add, Nat.cast_add,
    add_assoc]
  norm_num only
  simp only [h0, h1, h2, h3, h4, h6, h7, h8, h9, h10, h12, h21, h30, h31, h32, h33, h34, h35, h36, h37, h38, h39, h40]

theorem load_drop {α : Type} (V : List α) (o k : Nat) :
    load V ((o : Int) + (k : Int)) = load (V.drop o) ((0 : Int) + (k : Int)) := by
  rw [zero_add, load_natCast, ← Nat.cast_add, load_natCast, List.getElem?_drop]

theorem load_take {α : Type} (V : List α) (n k : Nat) (hk : k < n) :
    load (V.take n) ((0 : Int) + (k : Int)) = load V ((0 : Int) + (k : Int)) := by
  rw [zero_add, load_natCast, load_natCast, List.getElem?_take, if_pos hk]

theorem mem_decode_indices_lt (k : Nat) (hk : k ∈ decode_indices) : k < 41 := by
  simp only [decode_indices, List.mem_cons, List.mem_singleton, List.not_mem_nil, or_false] at hk
  omega

/-- Shifting the vector left by the block offset does not change the decoded block. -/
theorem parse_driver_data_drop {F : Type} [Field F] (REG_SCALE : F) (fl exp : F → F)
    (ds_res : DriverStateResult F) (V : List F) (o : Nat) :
    parse_driver_data REG_SCALE fl exp ds_res V o
      = parse_driver_data REG_SCALE fl exp ds_res (V.drop o) 0 :=
  parse_driver_data_congr REG_SCALE fl exp ds_res V (V.drop o) o 0 (fun k _ => load_drop V o k)

/-- Decoding at offset 0 only looks at the first 41 elements. -/
theorem parse_driver_data_take {F : Type} [Field F] (REG_SCALE : F) (fl exp : F → F)
    (ds_res : DriverStateResult F) (V : List F) :
    parse_driver_data REG_SCALE fl exp ds_res (V.take 41) 0
      = parse_driver_data REG_SCALE fl exp ds_res V 0 :=
  parse_driver_data_congr REG_SCALE fl exp ds_res (V.take 41) V 0 0
    (fun k hk => load_take V 41 k (mem_decode_indices_lt k hk))

/-- Decoding of an 84-element output vector succeeds with both blocks given by the
decode table and the two shared scalars read at 82 and 83. -/
theorem dmonitoring_decode_some {F : Type} [Field F] (REG_SCALE : F) (fl exp : F → F)
    (V : List F) (t1 t2 : F) (hV : V.length = OUTPUT_SIZE) :
    dmonitoring_decode REG_SCALE fl exp V t1 t2 = some
      { driver_state_lhd := index_table REG_SCALE fl exp V 0
        driver_state_rhd := index_table REG_SCALE fl exp V 41
        poor_vision := sigmoid fl exp (V.getD 82 0)
        wheel_on_right := sigmoid fl exp (V.getD 83 0)
        dsp_execution_time := (t2 - t1) / 1000 } := by
  have hV2 : V.length = 84 := hV
  have e0 := parse_driver_data_some REG_SCALE fl exp
    (DMonitoringModelResult.zero : DMonitoringModelResult F).driver_state_lhd V 0 (by omega)
  have e41 := parse_driver_data_some REG_SCALE fl exp
    (DMonitoringModelResult.zero : DMonitoringModelResult F).driver_state_rhd V 41 (by omega)
  have h82 : load V 82 = some (V.getD 82 0) := load_eq_getD V 82 82 rfl (by omega)
  have h83 : load V 83 = some (V.getD 83 0) := load_eq_getD V 83 83 rfl (by omega)
  simp only [Nat.cast_zero, Nat.cast_ofNat] at e0 e41
  simp only [dmonitoring_decode, e0, e41, h82, h83, Option.bind_eq_bind, Option.some_bind, bind,
    pure]

/-! ## C1: the decode index table -/

/-- C1. For every output vector `V` and block offset `o` whose block lies inside
the vector, `parse_driver_data` returns exactly the record of the index table:
orientation from `o+0..o+2` and position from `o+3..o+4` scaled by `REG_SCALE`,
their standard deviations `exp` of `o+6..o+8` and `o+9..o+10`, and the
probabilities the sigmoid of `o+12`, `o+21`, `o+30 … o+34`, `o+35..o+38` (ready)
and `o+39..o+40` (not ready), whatever `ds_res` held before; this holds for every
rounding `fl` of the `float` operations and every `exp`. -/
theorem parse_driver_data_index_table {F : Type} [Field F] (REG_SCALE : F) (fl exp : F → F)
    (ds_res : DriverStateResult F) (V : List F) (o : Nat) (hV : o + 41 ≤ V.length) :
    parse_driver_data REG_SCALE fl exp ds_res V o = some
      { face_orientation :=
          ![fl (V.getD o 0 * REG_SCALE), fl (V.getD (o + 1) 0 * REG_SCALE), fl (V.getD (o + 2) 0 * REG_SCALE)]
        face_position := ![fl (V.getD (o + 3) 0 * REG_SCALE), fl (V.getD (o + 4) 0 * REG_SCALE)]
        face_orientation_std :=
          ![exp (V.getD (o + 6) 0), exp (V.getD (o + 7) 0), exp (V.getD (o + 8) 0)]
        face_position_std := ![exp (V.getD (o + 9) 0), exp (V.getD (o + 10) 0)]
        face_prob := sigmoid fl exp (V.getD (o + 12) 0)
        left_eye_prob := sigmoid fl exp (V.getD (o + 21) 0)
        right_eye_prob := sigmoid fl exp (V.getD (o + 30) 0)
        left_blink_prob := sigmoid fl exp (V.getD (o + 31) 0)
        right_blink_prob := sigmoid fl exp (V.getD (o + 32) 0)
        sunglasses_prob := sigmoid fl exp (V.getD (o + 33) 0)
        occluded_prob := sigmoid fl exp (V.getD (o + 34) 0)
        ready_prob :=
          ![sigmoid fl exp (V.getD (o + 35) 0), sigmoid fl exp (V.getD (o + 36) 0),
            sigmoid fl exp (V.getD (o + 37) 0), sigmoid fl exp (V.getD (o + 38) 0)]
        not_ready_prob :=
          ![sigmoid fl exp (V.getD (o + 39) 0), sigmoid fl exp (V.getD (o + 40) 0)] } :=
  parse_driver_data_some REG_SCALE fl exp ds_res V o hV

/-- Witness for C1: the second block of an 84-element rational vector. -/
theorem parse_driver_data_index_table_witness :
    41 + 41 ≤ (List.replicate 84 (1 : ℚ)).length ∧
    parse_driver_data (1 / 4 : ℚ) binary32_round (fun x => x + 1) DriverStateResult.zero
        (List.replicate 84 (1 : ℚ)) (41 : Nat) = some
      { face_orientation :=
          ![binary32_round ((List.replicate 84 (1 : ℚ)).getD 41 0 * (1 / 4 : ℚ)), binary32_round ((List.replicate 84 (1 : ℚ)).getD (41 + 1) 0 * (1 / 4 : ℚ)), binary32_round ((List.replicate 84 (1 : ℚ)).getD (41 + 2) 0 * (1 / 4 : ℚ))]
        face_position := ![binary32_round ((List.replicate 84 (1 : ℚ)).getD (41 + 3) 0 * (1 / 4 : ℚ)), binary32_round ((List.replicate 84 (1 : ℚ)).getD (41 + 4) 0 * (1 / 4 : ℚ))]
        face_orientation_std :=
          ![(fun x => x + 1) ((List.replicate 84 (1 : ℚ)).getD (41 + 6) 0), (fun x => x + 1) ((List.replicate 84 (1 : ℚ)).getD (41 + 7) 0), (fun x => x + 1) ((List.replicate 84 (1 : ℚ)).getD (41 + 8) 0)]
        face_position_std := ![(fun x => x + 1) ((List.replicate 84 (1 : ℚ)).getD (41 + 9) 0), (fun x => x + 1) ((List.replicate 84 (1 : ℚ)).getD (41 + 10) 0)]
        face_prob := sigmoid binary32_round (fun x => x + 1) ((List.replicate 84 (1 : ℚ)).getD (41 + 12) 0)
        left_eye_prob := sigmoid binary32_round (fun x => x + 1) ((List.replicate 84 (1 : ℚ)).getD (41 + 21) 0)
        right_eye_prob := sigmoid binary32_round (fun x => x + 1) ((List.replicate 84 (1 : ℚ)).getD (41 + 30) 0)
        left_blink_prob := sigmoid binary32_round (fun x => x + 1) ((List.replicate 84 (1 : ℚ)).getD (41 + 31) 0)
        right_blink_prob := sigmoid binary32_round (fun x => x + 1) ((List.replicate 84 (1 : ℚ)).getD (41 + 32) 0)
        sunglasses_prob := sigmoid binary32_round (fun x => x + 1) ((List.replicate 84 (1 : ℚ)).getD (41 + 33) 0)
        occluded_prob := sigmoid binary32_round (fun x => x + 1) ((List.replicate 84 (1 : ℚ)).getD (41 + 34) 0)
        ready_prob :=
          ![sigmoid binary32_round (fun x => x + 1) ((List.replicate 84 (1 : ℚ)).getD (41 + 35) 0), sigmoid binary32_round (fun x => x + 1) ((List.replicate 84 (1 : ℚ)).getD (41 + 36) 0),
            sigmoid binary32_round (fun x => x + 1) ((List.replicate 84 (1 : ℚ)).getD (41 + 37) 0), sigmoid binary32_round (fun x => x + 1) ((List.replicate 84 (1 : ℚ)).getD (41 + 38) 0)]
        not_ready_prob :=
          ![sigmoid binary32_round (fun x => x + 1) ((List.replicate 84 (1 : ℚ)).getD (41 + 39) 0), sigmoid binary32_round (fun x => x + 1) ((List.replicate 84 (1 : ℚ)).getD (41 + 40) 0)] } :=
  ⟨by simp, parse_driver_data_index_table (1 / 4 : ℚ) binary32_round (fun x => x + 1) DriverStateResult.zero
    (List.replicate 84 (1 : ℚ)) 41 (by simp)⟩

/-! ## C2: the two blocks are decoded by the same transform -/

/-- C2. For an output vector `V` of length 84, decoding at block offset 41 equals
decoding at offset 0 the sub-vector `V[41:82]`; this is the `driver_state_rhd`
that `dmonitoring_eval_frame` decodes; and for every offset `o`, decoding `V` at
`o` equals decoding at 0 the vector shifted left by `o`. -/
theorem parse_driver_data_block_symmetry {F : Type} [Field F] (REG_SCALE : F) (fl exp : F → F)
    (ds_res : DriverStateResult F) (V : List F) (t1 t2 : F) (hV : V.length = 84) :
    parse_driver_data REG_SCALE fl exp ds_res V 41
        = parse_driver_data REG_SCALE fl exp ds_res ((V.drop 41).take 41) 0 ∧
    (dmonitoring_decode REG_SCALE fl exp V t1 t2).map (fun r => r.driver_state_rhd)
        = parse_driver_data REG_SCALE fl exp DriverStateResult.zero ((V.drop 41).take 41) 0 ∧
    ∀ o : Nat, parse_driver_data REG_SCALE fl exp ds_res V o
        = parse_driver_data REG_SCALE fl exp ds_res (V.drop o) 0 := by
  have key : ∀ ds : DriverStateResult F, parse_driver_data REG_SCALE fl exp ds V 41
      = parse_driver_data REG_SCALE fl exp ds ((V.drop 41).take 41) 0 := fun ds => by
    rw [parse_driver_data_take]
    exact parse_driver_data_drop REG_SCALE fl exp ds V 41
  refine ⟨key ds_res, ?_, fun o => parse_driver_data_drop REG_SCALE fl exp ds_res V o⟩
  rw [dmonitoring_decode_some REG_SCALE fl exp V t1 t2 hV, ← key,
    show ((41 : Int) = ((41 : Nat) : Int)) from rfl,
    parse_driver_data_some REG_SCALE fl exp _ V 41 (by omega)]
  rfl

/-- Witness for C2: an 84-element rational vector. -/
theorem parse_driver_data_block_symmetry_witness :
    (List.replicate 84 (1 : ℚ)).length = 84 ∧
    parse_driver_data (1 / 4 : ℚ) binary32_round (fun x => x + 1) DriverStateResult.zero
        (List.replicate 84 (1 : ℚ)) 41
      = parse_driver_data (1 / 4 : ℚ) binary32_round (fun x => x + 1) DriverStateResult.zero
        (((List.replicate 84 (1 : ℚ)).drop 41).take 41) 0 :=
  ⟨by simp, (parse_driver_data_block_symmetry (1 / 4 : ℚ) binary32_round (fun x => x + 1)
    DriverStateResult.zero (List.replicate 84 (1 : ℚ)) 0 0 (by simp)).1⟩

/-! ## Loop rules -/

/-- Invariant rule for `forLoop`: an invariant that holds initially and is kept by
every iteration that succeeds holds for the result. -/
theorem forLoop_inv {σ : Type} (body : Nat → σ → Option σ) (P : Nat → σ → Prop) :
    ∀ (n : Nat) (s s2 : σ), P 0 s →
      (∀ i a b, i < n → P i a → body i a = some b → P (i + 1) b) →
      forLoop body n s = some s2 → P n s2
  | 0, s, s2, h0, _, h => by
    simp only [forLoop, Option.some.injEq] at h
    exact h ▸ h0
  | n + 1, s, s2, h0, hstep, h => by
    simp only [forLoop, Option.bind_eq_some] at h
    obtain ⟨a, ha, hb⟩ := h
    have hPa := forLoop_inv body P n s a h0
      (fun i x y hi hx hy => hstep i x y (Nat.lt_succ_of_lt hi) hx hy) ha
    exact hstep n a s2 (Nat.lt_succ_self n) hPa hb

/-- Totality rule for `forLoop`: when every iteration succeeds on the states that
satisfy the invariant and re-establishes it, the loop succeeds. -/
theorem forLoop_total {σ : Type} (body : Nat → σ → Option σ) (P : Nat → σ → Prop) :
    ∀ (n : Nat) (s : σ), P 0 s →
      (∀ i a, i < n → P i a → ∃ b, body i a = some b ∧ P (i + 1) b) →
      ∃ s2, forLoop body n s = some s2 ∧ P n s2
  | 0, s, h0, _ => ⟨s, rfl, h0⟩
  | n + 1, s, h0, hstep => by
    obtain ⟨a, ha, hPa⟩ := forLoop_total body P n s h0
      (fun i x hi hx => hstep i x (Nat.lt_succ_of_lt hi) hx)
    obtain ⟨b, hb, hPb⟩ := hstep n a (Nat.lt_succ_self n) hPa
    exact ⟨b, by simp only [forLoop, ha, Option.some_bind, hb], hPb⟩

theorem store_natCast {α : Type} (mem : List α) (n : Nat) (v : α) :
    store mem (n : Int) v = if n < mem.length then some (mem.set n v) else none := by
  simp [store]

/-! ## The conversion loop -/

/-- What a successful `ByteToFloat` call leaves behind: the length of the
destination is kept, the `width` elements from `dN` on hold the scaled source
bytes, and every other element is untouched. -/
theorem ByteToFloat_inv {F : Type} [Field F] (fl : F → F) (src : List (Fin 256)) (so : Int) (dst d : List F)
    (dN : Nat) (scale : F) (w : Nat)
    (h : ByteToFloat fl src so dst (dN : Int) scale w = some d) :
    d.length = dst.length ∧
    (∀ i : Nat, i < w → ∃ b, load src (so + i) = some b ∧ d[dN + i]? = some (fl ((b.val : F) * scale))) ∧
    (∀ j : Nat, j < dN ∨ dN + w ≤ j → d[j]? = dst[j]?) := by
  refine forLoop_inv _ (fun n (x : List F) => x.length = dst.length ∧
      (∀ i : Nat, i < n → ∃ b, load src (so + i) = some b ∧
        x[dN + i]? = some (fl ((b.val : F) * scale))) ∧
      (∀ j : Nat, j < dN ∨ dN + n ≤ j → x[j]? = dst[j]?)) w dst d
    ⟨rfl, fun i hi => absurd hi (Nat.not_lt_zero i), fun _ _ => rfl⟩ ?_ h
  intro n a b _ ⟨hlen, hdone, hrest⟩ hb
  simp only [Option.bind_eq_bind, Option.bind_eq_some] at hb
  obtain ⟨byte, hbyte, hst⟩ := hb
  rw [← Nat.cast_add, store_natCast] at hst
  split at hst
  · rename_i hlt
    simp only [Option.some.injEq] at hst
    subst hst
    refine ⟨by rw [List.length_set, hlen], ?_, ?_⟩
    · intro i hi
      rcases Nat.lt_succ_iff_lt_or_eq.mp hi with hlt2 | heq
      · obtain ⟨b2, hb2, hv⟩ := hdone i hlt2
        refine ⟨b2, hb2, ?_⟩
        rw [List.getElem?_set_ne (by omega)]
        exact hv
      · subst heq
        exact ⟨byte, hbyte, List.getElem?_set_self hlt⟩
    · intro j hj
      rw [List.getElem?_set_ne (by omega)]
      exact hrest j (by omega)
  · exact absurd hst (by simp)

/-- A `ByteToFloat` call whose reads and writes are in bounds succeeds. -/
theorem ByteToFloat_total {F : Type} [Field F] (fl : F → F) (src : List (Fin 256)) (so : Int) (dst : List F)
    (dN : Nat) (scale : F) (w : Nat)
    (hsrc : ∀ i : Nat, i < w → ∃ b, load src (so + i) = some b)
    (hdst : dN + w ≤ dst.length) :
    ∃ d, ByteToFloat fl src so dst (dN : Int) scale w = some d := by
  obtain ⟨d, hd, _⟩ := forLoop_total (fun i (x : List F) => do
      let b ← load src (so + i)
      store x ((dN : Int) + i) (fl ((b.val : F) * scale)))
    (fun _ (x : List F) => x.length = dst.length) w dst rfl (by
      intro i a hi ha
      obtain ⟨b, hb⟩ := hsrc i hi
      refine ⟨a.set (dN + i) (fl ((b.val : F) * scale)), ?_, by simpa using ha⟩
      simp only [hb, Option.bind_eq_bind, Option.some_bind]
      rw [← Nat.cast_add, store_natCast, if_pos (by omega)])
  exact ⟨d, hd⟩

/-- What a successful run of the row loop leaves behind, for rows of width `W`
written at `r * W` and read at `so r`. -/
theorem rows_inv {F : Type} [Field F] (fl : F → F) (src : List (Fin 256)) (so : Nat → Int) (scale : F)
    (W H : Nat) (buf0 buf : List F)
    (h : forLoop (fun r x => ByteToFloat fl src (so r) x ((r : Int) * (W : Int)) scale W) H buf0
      = some buf) :
    buf.length = buf0.length ∧
    (∀ r c : Nat, r < H → c < W →
      ∃ b, load src (so r + c) = some b ∧ buf[r * W + c]? = some (fl ((b.val : F) * scale))) ∧
    (∀ j : Nat, H * W ≤ j → buf[j]? = buf0[j]?) := by
  refine forLoop_inv _ (fun n (x : List F) => x.length = buf0.length ∧
      (∀ r c : Nat, r < n → c < W →
        ∃ b, load src (so r + c) = some b ∧ x[r * W + c]? = some (fl ((b.val : F) * scale))) ∧
      (∀ j : Nat, n * W ≤ j → x[j]? = buf0[j]?)) H buf0 buf
    ⟨rfl, fun r _ hr => absurd hr (Nat.not_lt_zero r), fun _ _ => rfl⟩ ?_ h
  intro n a b _ ⟨hlen, hdone, hrest⟩ hb
  rw [← Nat.cast_mul] at hb
  obtain ⟨blen, brow, bother⟩ := ByteToFloat_inv fl src (so n) a b (n * W) scale W hb
  have hsucc : (n + 1) * W = n * W + W := Nat.succ_mul n W
  refine ⟨blen.trans hlen, ?_, ?_⟩
  · intro r c hr hc
    rcases Nat.lt_succ_iff_lt_or_eq.mp hr with hlt | heq
    · obtain ⟨b2, hb2, hv⟩ := hdone r c hlt hc
      have h1 : (r + 1) * W ≤ n * W := Nat.mul_le_mul_right W hlt
      have h2 : (r + 1) * W = r * W + W := Nat.succ_mul r W
      exact ⟨b2, hb2, (bother (r * W + c) (Or.inl (by omega))).trans hv⟩
    · subst heq
      exact brow c hc
  · intro j hj
    rw [bother j (Or.inr (by omega))]
    exact hrest j (by omega)

/-- The row loop succeeds when every read is in bounds and the destination holds
`H * W` elements. -/
theorem rows_total {F : Type} [Field F] (fl : F → F) (src : List (Fin 256)) (so : Nat → Int) (scale : F)
    (W H : Nat) (buf0 : List F)
    (hsrc : ∀ r c : Nat, r < H → c < W → ∃ b, load src (so r + c) = some b)
    (hdst : H * W ≤ buf0.length) :
    ∃ buf, forLoop (fun r x => ByteToFloat fl src (so r) x ((r : Int) * (W : Int)) scale W) H buf0
      = some buf := by
  obtain ⟨buf, hbuf, _⟩ := forLoop_total
    (fun r x => ByteToFloat fl src (so r) x ((r : Int) * (W : Int)) scale W)
    (fun _ (x : List F) => x.length = buf0.length) H buf0 rfl (by
      intro n a hn ha
      have h1 : (n + 1) * W ≤ H * W := Nat.mul_le_mul_right W hn
      have h2 : (n + 1) * W = n * W + W := Nat.succ_mul n W
      obtain ⟨d, hd⟩ := ByteToFloat_total fl src (so n) a (n * W) scale W
        (fun c hc => hsrc n c hn hc) (by omega)
      rw [Nat.cast_mul] at hd
      refine ⟨d, hd, ?_⟩
      rw [← Nat.cast_mul] at hd
      exact (ByteToFloat_inv fl src (so n) a d (n * W) scale W hd).1.trans ha)
  exact ⟨buf, hbuf⟩

/-! ## The scratch buffer -/

theorem get_buffer_length {α : Type} [Zero α] (buf : List α) (size : Nat) :
    (get_buffer buf size).length = max buf.length size := by
  unfold get_buffer
  split
  · rw [List.length_append, List.length_replicate]
    omega
  · omega

theorem get_buffer_prefix {α : Type} [Zero α] (buf : List α) (size j : Nat)
    (hj : j < buf.length) : (get_buffer buf size)[j]? = buf[j]? := by
  unfold get_buffer
  split
  · exact List.getElem?_append_left hj
  · rfl

/-- The source offset of row `r` of the crop window, as the code computes it. -/
theorem crop_index_eq (width height stride : Int) (r c : Nat) :
    stride * (height - (MODEL_HEIGHT : Int)) + (r : Int) * stride
        + (width - (MODEL_WIDTH : Int)).tdiv 2 + (c : Int)
      = (height - (MODEL_HEIGHT : Int) + r) * stride
        + (width - (MODEL_WIDTH : Int)).tdiv 2 + c := by
  ring

/-- Partial correctness of the preprocessing: a returned tensor buffer has the
length of the grown scratch buffer and holds, at `r * MODEL_WIDTH + c`, the scaled
byte read at `(v_off + r) * stride + h_off + c`. -/
theorem dmonitoring_preprocess_inv {F : Type} [Field F] (fl : F → F) (net_input_buf buf : List F)
    (stream_buf : List (Fin 256)) (width height stride : Int)
    (h : dmonitoring_preprocess fl net_input_buf stream_buf width height stride = some buf) :
    buf.length = max net_input_buf.length (MODEL_WIDTH * MODEL_HEIGHT) ∧
    (∀ r c : Nat, r < MODEL_HEIGHT → c < MODEL_WIDTH →
      ∃ b, load stream_buf ((height - (MODEL_HEIGHT : Int) + r) * stride
          + (width - (MODEL_WIDTH : Int)).tdiv 2 + c) = some b ∧
        buf[r * MODEL_WIDTH + c]? = some (fl ((b.val : F) * fl (3921569 / 1000000000)))) ∧
    (∀ j : Nat, MODEL_WIDTH * MODEL_HEIGHT ≤ j → buf[j]? = net_input_buf[j]?) := by
  obtain ⟨hlen, hrows, hrest⟩ := rows_inv fl stream_buf
    (fun r => stride * (height - (MODEL_HEIGHT : Int)) + (r : Int) * stride
      + (width - (MODEL_WIDTH : Int)).tdiv 2)
    (fl (3921569 / 1000000000)) MODEL_WIDTH MODEL_HEIGHT
    (get_buffer net_input_buf (MODEL_WIDTH * MODEL_HEIGHT)) buf h
  refine ⟨by rw [hlen, get_buffer_length], ?_, ?_⟩
  · intro r c hr hc
    obtain ⟨b, hb, hv⟩ := hrows r c hr hc
    exact ⟨b, by rw [← crop_index_eq]; exact hb, hv⟩
  · intro j hj
    rw [hrest j (by rw [Nat.mul_comm]; exact hj)]
    unfold get_buffer
    split
    · rw [List.getElem?_append_right (by omega), List.getElem?_replicate,
        if_neg (by omega), List.getElem?_eq_none (by omega)]
    · rfl

/-- The preprocessing succeeds when every byte of the crop window is inside the
frame buffer. -/
theorem dmonitoring_preprocess_total {F : Type} [Field F] (fl : F → F) (net_input_buf : List F)
    (stream_buf : List (Fin 256)) (width height stride : Int)
    (hin : ∀ r c : Nat, r < MODEL_HEIGHT → c < MODEL_WIDTH →
      ∃ b, load stream_buf ((height - (MODEL_HEIGHT : Int) + r) * stride
          + (width - (MODEL_WIDTH : Int)).tdiv 2 + c) = some b) :
    ∃ buf : List F,
      dmonitoring_preprocess fl net_input_buf stream_buf width height stride = some buf :=
  rows_total fl stream_buf
    (fun r => stride * (height - (MODEL_HEIGHT : Int)) + (r : Int) * stride
      + (width - (MODEL_WIDTH : Int)).tdiv 2)
    (fl (3921569 / 1000000000)) MODEL_WIDTH MODEL_HEIGHT
    (get_buffer net_input_buf (MODEL_WIDTH * MODEL_HEIGHT))
    (fun r c hr hc => by
      obtain ⟨b, hb⟩ := hin r c hr hc
      exact ⟨b, by rw [crop_index_eq]; exact hb⟩)
    (by rw [get_buffer_length, Nat.mul_comm]; exact le_max_right _ _)

theorem load_some_of_bounds {α : Type} (mem : List α) (i : Int) (h0 : 0 ≤ i)
    (h1 : i < mem.length) : ∃ b, load mem i = some b := by
  have hlt : i.toNat < mem.length := by omega
  exact ⟨mem[i.toNat], by simp [load, Int.not_lt.mpr h0, List.getElem?_eq_getElem hlt]⟩

/-- For a frame at least as wide as the model the truncating division of the code
is the floor. -/
theorem h_off_floor (width : Int) (hw : (MODEL_WIDTH : Int) ≤ width) :
    (width - (MODEL_WIDTH : Int)).tdiv 2 = (width - (MODEL_WIDTH : Int)).fdiv 2 := by
  rw [Int.tdiv_eq_ediv (by omega) (by norm_num), Int.fdiv_eq_ediv _ (by norm_num)]

/-! ## C3: the crop window -/

/-- C3. For every frame at least `MODEL_WIDTH` wide whose crop window lies inside
the frame buffer, with any stride and any previous scratch buffer, the
preprocessing loop returns a tensor buffer in which, for every row `r < 960` and
column `c < 1440`, element `r*1440 + c` is the conversion (the `float` product
of the byte and the scale constant, for every rounding `fl`) of the source byte
at index `(v_off + r)*stride + h_off + c`, where
`v_off = height − 960` and `h_off = ⌊(width − 1440)/2⌋`, which is what the
truncating division of the code computes. -/
theorem dmonitoring_preprocess_crop_window {F : Type} [Field F] (fl : F → F) (net_input_buf : List F)
    (stream_buf : List (Fin 256)) (width height stride : Int)
    (hw : (MODEL_WIDTH : Int) ≤ width)
    (hin : ∀ r c : Nat, r < MODEL_HEIGHT → c < MODEL_WIDTH →
      0 ≤ (height - (MODEL_HEIGHT : Int) + r) * stride
          + (width - (MODEL_WIDTH : Int)).fdiv 2 + c ∧
      (height - (MODEL_HEIGHT : Int) + r) * stride
          + (width - (MODEL_WIDTH : Int)).fdiv 2 + c < stream_buf.length) :
    (width - (MODEL_WIDTH : Int)).tdiv 2 = (width - (MODEL_WIDTH : Int)).fdiv 2 ∧
    ∃ buf : List F,
      dmonitoring_preprocess fl net_input_buf stream_buf width height stride = some buf ∧
      ∀ r c : Nat, r < 960 → c < 1440 →
        ∃ b : Fin 256,
          load stream_buf ((height - 960 + r) * stride + (width - 1440).fdiv 2 + c) = some b ∧
          buf[r * 1440 + c]? = some (fl ((b.val : F) * fl (3921569 / 1000000000))) := by
  have hfl := h_off_floor width hw
  refine ⟨hfl, ?_⟩
  obtain ⟨buf, hbuf⟩ := dmonitoring_preprocess_total fl net_input_buf stream_buf width height stride
    (fun r c hr hc => by
      rw [hfl]
      exact load_some_of_bounds _ _ (hin r c hr hc).1 (hin r c hr hc).2)
  refine ⟨buf, hbuf, fun r c hr hc => ?_⟩
  obtain ⟨b, hb, hv⟩ :=
    (dmonitoring_preprocess_inv fl net_input_buf buf stream_buf width height stride hbuf).2.1 r c hr hc
  rw [hfl] at hb
  exact ⟨b, hb, hv⟩

/-- Witness for C3: a 1440×960 frame of stride 1440 filled with the byte 7; the
first tensor element is the conversion of the first byte. -/
theorem dmonitoring_preprocess_crop_window_witness :
    ∃ buf : List ℚ,
      dmonitoring_preprocess binary32_round ([] : List ℚ) (List.replicate (1440 * 960) (7 : Fin 256))
        1440 960 1440 = some buf ∧
      ∃ b : Fin 256,
        load (List.replicate (1440 * 960) (7 : Fin 256))
          ((960 - 960 + ((0 : Nat) : Int)) * 1440 + ((1440 : Int) - 1440).fdiv 2 + ((0 : Nat) : Int))
          = some b ∧
        buf[0 * 1440 + 0]? = some (binary32_round ((b.val : ℚ) * binary32_round (3921569 / 1000000000))) := by
  obtain ⟨_, buf, hbuf, hall⟩ := dmonitoring_preprocess_crop_window binary32_round ([] : List ℚ)
    (List.replicate (1440 * 960) (7 : Fin 256)) 1440 960 1440 (by decide)
    (fun r c hr hc => by
      simp only [ MODEL_HEIGHT, MODEL_WIDTH, Nat.cast_ofNat, sub_self, Int.zero_fdiv, zero_add,
        add_zero, List.length_replicate] at hr hc ⊢
      constructor <;> omega)
  exact ⟨buf, hbuf, hall 0 0 (by norm_num) (by norm_num)⟩

/-! ## The calibration copy loop and the staging prefix -/

/-- What a successful calibration copy leaves behind. -/
theorem calib_copy_inv {F : Type} (calib cal0 cal : List F) (n : Nat)
    (h : forLoop (fun i c => do
      let x ← load calib i
      store c i x) n cal0 = some cal) :
    cal.length = cal0.length ∧
    (∀ i : Nat, i < n → ∃ x, calib[i]? = some x ∧ cal[i]? = some x) ∧
    (∀ j : Nat, n ≤ j → cal[j]? = cal0[j]?) := by
  refine forLoop_inv _ (fun k (m : List F) => m.length = cal0.length ∧
      (∀ i : Nat, i < k → ∃ x, calib[i]? = some x ∧ m[i]? = some x) ∧
      (∀ j : Nat, k ≤ j → m[j]? = cal0[j]?)) n cal0 cal
    ⟨rfl, fun i hi => absurd hi (Nat.not_lt_zero i), fun _ _ => rfl⟩ ?_ h
  intro k a b _ ⟨hlen, hdone, hrest⟩ hb
  simp only [Option.bind_eq_bind, Option.bind_eq_some, load_natCast, store_natCast] at hb
  obtain ⟨x, hx, hst⟩ := hb
  split at hst
  · rename_i hlt
    simp only [Option.some.injEq] at hst
    subst hst
    refine ⟨by rw [List.length_set, hlen], ?_, ?_⟩
    · intro i hi
      rcases Nat.lt_succ_iff_lt_or_eq.mp hi with hlt2 | heq
      · obtain ⟨y, hy, hv⟩ := hdone i hlt2
        exact ⟨y, hy, by rw [List.getElem?_set_ne (by omega)]; exact hv⟩
      · subst heq
        exact ⟨x, hx, List.getElem?_set_self hlt⟩
    · intro j hj
      rw [List.getElem?_set_ne (by omega)]
      exact hrest j (by omega)
  · exact absurd hst (by simp)

/-- The calibration copy succeeds when both arrays hold `n` elements. -/
theorem calib_copy_total {F : Type} (calib cal0 : List F) (n : Nat)
    (hsrc : n ≤ calib.length) (hdst : n ≤ cal0.length) :
    ∃ cal, forLoop (fun i c => do
      let x ← load calib i
      store c i x) n cal0 = some cal := by
  obtain ⟨cal, hcal, _⟩ := forLoop_total (fun i (c : List F) => do
      let x ← load calib i
      store c i x)
    (fun _ (c : List F) => c.length = cal0.length) n cal0 rfl (by
      intro i a hi ha
      have hi2 : i < calib.length := by omega
      refine ⟨a.set i calib[i], ?_, by simpa using ha⟩
      simp only [load_natCast, store_natCast, List.getElem?_eq_getElem hi2, Option.bind_eq_bind,
        Option.some_bind]
      rw [if_pos (by omega)])
  exact ⟨cal, hcal⟩

/-- The state at the call of `execute()` in terms of the two loops. -/
theorem dmonitoring_stage_eq_some {F : Type} [Field F] (fl : F → F) (CALIB_LEN : Nat)
    (s s2 : DMonitoringModelState F) (stream_buf : List (Fin 256))
    (width height stride : Int) (calib : List F)
    (h : dmonitoring_stage fl CALIB_LEN s stream_buf width height stride calib = some s2) :
    ∃ buf cal,
      dmonitoring_preprocess fl s.net_input_buf stream_buf width height stride = some buf ∧
      forLoop (fun i c => do
        let x ← load calib i
        store c i x) CALIB_LEN s.calib = some cal ∧
      s2 = { is_rhd := s.is_rhd, net_input_buf := buf, calib := cal, output := s.output,
             m := { calib_len := s.m.calib_len, image_len := MODEL_WIDTH * MODEL_HEIGHT } } := by
  simp only [dmonitoring_stage, Option.bind_eq_bind, Option.bind_eq_some, bind, pure,
    Option.some.injEq] at h
  obtain ⟨buf, hbuf, cal, hcal, hs⟩ := h
  exact ⟨buf, cal, hbuf, hcal, hs.symm⟩

/-- The staging prefix succeeds when the crop window lies inside the frame buffer
and both calibration arrays hold `CALIB_LEN` elements. -/
theorem dmonitoring_stage_total {F : Type} [Field F] (fl : F → F) (CALIB_LEN : Nat)
    (s : DMonitoringModelState F) (stream_buf : List (Fin 256))
    (width height stride : Int) (calib : List F)
    (hin : ∀ r c : Nat, r < MODEL_HEIGHT → c < MODEL_WIDTH →
      ∃ b, load stream_buf ((height - (MODEL_HEIGHT : Int) + r) * stride
          + (width - (MODEL_WIDTH : Int)).tdiv 2 + c) = some b)
    (hsrc : CALIB_LEN ≤ calib.length) (hdst : CALIB_LEN ≤ s.calib.length) :
    ∃ s2, dmonitoring_stage fl CALIB_LEN s stream_buf width height stride calib = some s2 := by
  obtain ⟨buf, hbuf⟩ :=
    dmonitoring_preprocess_total fl s.net_input_buf stream_buf width height stride hin
  obtain ⟨cal, hcal⟩ := calib_copy_total calib s.calib CALIB_LEN hsrc hdst
  simp only [Option.bind_eq_bind] at hcal
  simp only [dmonitoring_stage, hbuf, hcal, Option.bind_eq_bind, Option.some_bind, bind, pure]
  exact ⟨_, rfl⟩

theorem load_replicate {α : Type} (n : Nat) (v b : α) (i : Int)
    (h : load (List.replicate n v) i = some b) : b = v := by
  unfold load at h
  split at h
  · exact absurd h (by simp)
  · rw [List.getElem?_replicate] at h
    split at h
    · exact (Option.some.inj h).symm
    · exact absurd h (by simp)

/-- The tensor staged for the engine: it has `MODEL_WIDTH * MODEL_HEIGHT` elements
and element `k` is the scaled byte of the crop window at row `k / MODEL_WIDTH`,
column `k % MODEL_WIDTH`. -/
theorem engine_input_image {F : Type} [Field F] (fl : F → F) (CALIB_LEN : Nat)
    (s s2 : DMonitoringModelState F) (stream_buf : List (Fin 256))
    (width height stride : Int) (calib : List F)
    (h : dmonitoring_stage fl CALIB_LEN s stream_buf width height stride calib = some s2) :
    (engine_input s2).image.length = MODEL_WIDTH * MODEL_HEIGHT ∧
    ∀ k : Nat, k < MODEL_WIDTH * MODEL_HEIGHT →
      ∃ b : Fin 256,
        load stream_buf ((height - (MODEL_HEIGHT : Int) + (k / MODEL_WIDTH : Nat)) * stride
          + (width - (MODEL_WIDTH : Int)).tdiv 2 + (k % MODEL_WIDTH : Nat)) = some b ∧
        (engine_input s2).image[k]? = some (fl ((b.val : F) * fl (3921569 / 1000000000))) := by
  obtain ⟨buf, cal, hbuf, _, hs⟩ :=
    dmonitoring_stage_eq_some fl CALIB_LEN s s2 stream_buf width height stride calib h
  obtain ⟨hlen, hrows, _⟩ :=
    dmonitoring_preprocess_inv fl s.net_input_buf buf stream_buf width height stride hbuf
  subst hs
  refine ⟨?_, fun k hk => ?_⟩
  · simp only [engine_input, List.length_take, hlen]
    exact min_eq_left (le_max_right _ _)
  · have hWpos : 0 < MODEL_WIDTH := by decide
    have hr : k / MODEL_WIDTH < MODEL_HEIGHT :=
      (Nat.div_lt_iff_lt_mul hWpos).mpr (by rw [Nat.mul_comm]; exact hk)
    obtain ⟨b, hb, hv⟩ := hrows (k / MODEL_WIDTH) (k % MODEL_WIDTH) hr (Nat.mod_lt k hWpos)
    refine ⟨b, hb, ?_⟩
    have hk2 : k / MODEL_WIDTH * MODEL_WIDTH + k % MODEL_WIDTH = k := by
      rw [Nat.mul_comm]
      exact Nat.div_add_mod k MODEL_WIDTH
    rw [hk2] at hv
    simp only [engine_input, List.getElem?_take, if_pos hk]
    exact hv

/-! ## Facts about the binary32 rounding -/

theorem round_half_even_bounds {F : Type} [LinearOrderedField F] [FloorRing F] (q : F) :
    ⌊q⌋ ≤ round_half_even q ∧ round_half_even q ≤ ⌊q⌋ + 1 := by
  unfold round_half_even
  split_ifs <;> constructor <;> omega

theorem round_half_even_eq {F : Type} [LinearOrderedField F] [FloorRing F] (q : F) (n : Int) (h1 : (n : F) - 1 / 2 < q) (h2 : q < (n : F) + 1 / 2) :
    round_half_even q = n := by
  unfold round_half_even
  have hf1 : (⌊q⌋ : F) ≤ q := Int.floor_le q
  have hf2 : q < (⌊q⌋ : F) + 1 := Int.lt_floor_add_one q
  have hlo : n - 1 < ⌊q⌋ + 1 := by
    have : ((n : F) - 1) < (⌊q⌋ : F) + 1 := by linarith
    exact_mod_cast this
  have hhi : ⌊q⌋ < n + 1 := by
    have : (⌊q⌋ : F) < (n : F) + 1 := by linarith
    exact_mod_cast this
  have hcase : ⌊q⌋ = n ∨ ⌊q⌋ = n - 1 := by omega
  rcases hcase with h | h
  · rw [h]
    rw [if_pos (by linarith)]
  · have hq : (⌊q⌋ : F) = (n : F) - 1 := by rw [h]; push_cast; ring
    rw [if_neg (by rw [hq]; linarith), if_pos (by rw [hq]; linarith), h]
    ring

theorem round_half_even_intCast {F : Type} [LinearOrderedField F] [FloorRing F] (n : Int) : round_half_even (n : F) = n :=
  round_half_even_eq (n : F) n (by linarith) (by linarith)

theorem round_half_even_mono {F : Type} [LinearOrderedField F] [FloorRing F] (q r : F) (h : q ≤ r) : round_half_even q ≤ round_half_even r := by
  have hfl : ⌊q⌋ ≤ ⌊r⌋ := Int.floor_mono h
  rcases lt_or_eq_of_le hfl with hlt | heq
  · have := (round_half_even_bounds q).2
    have := (round_half_even_bounds r).1
    omega
  · unfold round_half_even
    rw [← heq]
    have hfr : q - (⌊q⌋ : F) ≤ r - (⌊q⌋ : F) := by linarith
    split_ifs <;> first | omega | (exfalso; linarith)

theorem round_half_even_abs_sub {F : Type} [LinearOrderedField F] [FloorRing F] (q : F) : |(round_half_even q : F) - q| ≤ 1 / 2 := by
  have hf1 : (⌊q⌋ : F) ≤ q := Int.floor_le q
  have hf2 : q < (⌊q⌋ : F) + 1 := Int.lt_floor_add_one q
  unfold round_half_even
  rw [abs_le]
  split_ifs <;> push_cast <;> constructor <;> linarith

theorem two_zpow_pos {F : Type} [LinearOrderedField F] (k : Int) : (0 : F) < (2 : F) ^ k := zpow_pos (by norm_num) k

theorem two_zpow_le {F : Type} [LinearOrderedField F] (j k : Int) (h : j ≤ k) : (2 : F) ^ j ≤ (2 : F) ^ k :=
  zpow_le_zpow_right₀ (by norm_num) h

theorem binary32_exponent_eq {F : Type} [LinearOrderedField F] [FloorRing F] (a : F) (e : Int) (ha : 0 < a) (h1 : (2 : F) ^ e ≤ a)
    (h2 : a < (2 : F) ^ (e + 1)) (he : -126 ≤ e) : binary32_exponent a = e := by
  have hlog1 : e ≤ Int.log 2 a := by
    rw [← Int.zpow_le_iff_le_log (by norm_num) ha]
    simpa using h1
  have hlog2 : Int.log 2 a < e + 1 := by
    rw [← Int.lt_zpow_iff_log_lt (by norm_num) ha]
    simpa using h2
  unfold binary32_exponent
  omega

theorem binary32_exponent_ge {F : Type} [LinearOrderedField F] [FloorRing F] (a : F) : -126 ≤ binary32_exponent a := le_max_right _ _

theorem lt_two_zpow_exponent {F : Type} [LinearOrderedField F] [FloorRing F] (a : F) : a < (2 : F) ^ (binary32_exponent a + 1) := by
  have h := Int.lt_zpow_succ_log_self (R := F) (b := 2) (by norm_num) a
  simp only [Nat.cast_ofNat] at h
  exact lt_of_lt_of_le h (two_zpow_le _ _ (by unfold binary32_exponent; omega))

theorem two_zpow_exponent_le {F : Type} [LinearOrderedField F] [FloorRing F] (a : F) (ha : 0 < a) (he : -126 < binary32_exponent a) :
    (2 : F) ^ binary32_exponent a ≤ a := by
  have hlog : binary32_exponent a = Int.log 2 a := by
    unfold binary32_exponent at he ⊢
    omega
  rw [hlog]
  have h := Int.zpow_log_le_self (R := F) (b := 2) (by norm_num) ha
  simpa using h

theorem binary32_exponent_mono {F : Type} [LinearOrderedField F] [FloorRing F] (a b : F) (ha : 0 < a) (h : a ≤ b) :
    binary32_exponent a ≤ binary32_exponent b := by
  have := Int.log_mono_right (b := 2) ha h
  unfold binary32_exponent
  omega

theorem binary32_round_abs_nonneg {F : Type} [LinearOrderedField F] [FloorRing F] (a : F) (ha : 0 ≤ a) : 0 ≤ binary32_round_abs a := by
  unfold binary32_round_abs
  have hu := two_zpow_pos (F := F) (binary32_exponent a - 23)
  have hq : 0 ≤ a / (2 : F) ^ (binary32_exponent a - 23) := div_nonneg ha hu.le
  have hfl : 0 ≤ ⌊a / (2 : F) ^ (binary32_exponent a - 23)⌋ := Int.floor_nonneg.mpr hq
  have hr := (round_half_even_bounds (a / (2 : F) ^ (binary32_exponent a - 23))).1
  have : (0 : F) ≤ (round_half_even (a / (2 : F) ^ (binary32_exponent a - 23)) : F) := by
    exact_mod_cast le_trans hfl hr
  exact mul_nonneg this hu.le

theorem binary32_round_abs_le {F : Type} [LinearOrderedField F] [FloorRing F] (a : F) :
    binary32_round_abs a ≤ (2 : F) ^ (binary32_exponent a + 1) := by
  unfold binary32_round_abs
  have hu := two_zpow_pos (F := F) (binary32_exponent a - 23)
  have hq : a / (2 : F) ^ (binary32_exponent a - 23) ≤ ((2 ^ 24 : Int) : F) := by
    rw [div_le_iff₀ hu]
    have e : ((2 ^ 24 : Int) : F) * (2 : F) ^ (binary32_exponent a - 23)
        = (2 : F) ^ (binary32_exponent a + 1) := by
      rw [show binary32_exponent a + 1 = 24 + (binary32_exponent a - 23) by ring,
        zpow_add₀ (by norm_num)]
      norm_num
    rw [e]
    exact (lt_two_zpow_exponent a).le
  have hr := round_half_even_mono _ _ hq
  rw [round_half_even_intCast] at hr
  have hr2 : (round_half_even (a / (2 : F) ^ (binary32_exponent a - 23)) : F)
      ≤ ((2 ^ 24 : Int) : F) := by exact_mod_cast hr
  calc (round_half_even (a / (2 : F) ^ (binary32_exponent a - 23)) : F)
          * (2 : F) ^ (binary32_exponent a - 23)
      ≤ ((2 ^ 24 : Int) : F) * (2 : F) ^ (binary32_exponent a - 23) :=
        mul_le_mul_of_nonneg_right hr2 hu.le
    _ = (2 : F) ^ (binary32_exponent a + 1) := by
        rw [show binary32_exponent a + 1 = 24 + (binary32_exponent a - 23) by ring,
          zpow_add₀ (by norm_num)]
        norm_num

theorem binary32_round_abs_ge {F : Type} [LinearOrderedField F] [FloorRing F] (a : F) (ha : 0 < a) (he : -126 < binary32_exponent a) :
    (2 : F) ^ binary32_exponent a ≤ binary32_round_abs a := by
  unfold binary32_round_abs
  have hu := two_zpow_pos (F := F) (binary32_exponent a - 23)
  have e : ((2 ^ 23 : Int) : F) * (2 : F) ^ (binary32_exponent a - 23)
      = (2 : F) ^ binary32_exponent a := by
    rw [show binary32_exponent a = 23 + (binary32_exponent a - 23) by ring,
      zpow_add₀ (by norm_num)]
    norm_num
  have hq : ((2 ^ 23 : Int) : F) ≤ a / (2 : F) ^ (binary32_exponent a - 23) := by
    rw [le_div_iff₀ hu, e]
    exact two_zpow_exponent_le a ha he
  have hr := round_half_even_mono _ _ hq
  rw [round_half_even_intCast] at hr
  have hr2 : ((2 ^ 23 : Int) : F)
      ≤ (round_half_even (a / (2 : F) ^ (binary32_exponent a - 23)) : F) := by exact_mod_cast hr
  calc (2 : F) ^ binary32_exponent a
      = ((2 ^ 23 : Int) : F) * (2 : F) ^ (binary32_exponent a - 23) := e.symm
    _ ≤ _ := mul_le_mul_of_nonneg_right hr2 hu.le

theorem binary32_round_abs_zero {F : Type} [LinearOrderedField F] [FloorRing F] : binary32_round_abs (0 : F) = 0 := by
  unfold binary32_round_abs
  rw [zero_div, show (0 : F) = ((0 : Int) : F) by norm_num, round_half_even_intCast]
  norm_num

theorem binary32_round_abs_mono {F : Type} [LinearOrderedField F] [FloorRing F] (a b : F) (ha : 0 ≤ a) (h : a ≤ b) :
    binary32_round_abs a ≤ binary32_round_abs b := by
  rcases eq_or_lt_of_le ha with h0 | hpos
  · rw [← h0, binary32_round_abs_zero]
    exact binary32_round_abs_nonneg b (le_trans ha h)
  · have hb : 0 < b := lt_of_lt_of_le hpos h
    rcases eq_or_lt_of_le (binary32_exponent_mono a b hpos h) with heq | hlt
    · unfold binary32_round_abs
      rw [heq]
      have hu := two_zpow_pos (F := F) (binary32_exponent b - 23)
      have hq : a / (2 : F) ^ (binary32_exponent b - 23) ≤ b / (2 : F) ^ (binary32_exponent b - 23) :=
        div_le_div_of_nonneg_right h hu.le
      have hr := round_half_even_mono _ _ hq
      have hr2 : (round_half_even (a / (2 : F) ^ (binary32_exponent b - 23)) : F)
          ≤ (round_half_even (b / (2 : F) ^ (binary32_exponent b - 23)) : F) := by exact_mod_cast hr
      exact mul_le_mul_of_nonneg_right hr2 hu.le
    · calc binary32_round_abs a ≤ (2 : F) ^ (binary32_exponent a + 1) := binary32_round_abs_le a
        _ ≤ (2 : F) ^ binary32_exponent b := two_zpow_le _ _ hlt
        _ ≤ binary32_round_abs b :=
          binary32_round_abs_ge b hb (lt_of_le_of_lt (binary32_exponent_ge a) hlt)

theorem binary32_round_of_nonneg {F : Type} [LinearOrderedField F] [FloorRing F] (x : F) (hx : 0 ≤ x) : binary32_round x = binary32_round_abs x := by
  unfold binary32_round
  rw [if_neg (not_lt.mpr hx)]

/-- Rounding is monotone on the non-negative numbers. -/
theorem binary32_round_mono {F : Type} [LinearOrderedField F] [FloorRing F] (x y : F) (hx : 0 ≤ x) (h : x ≤ y) :
    binary32_round x ≤ binary32_round y := by
  rw [binary32_round_of_nonneg x hx, binary32_round_of_nonneg y (le_trans hx h)]
  exact binary32_round_abs_mono x y hx h

theorem binary32_round_zero {F : Type} [LinearOrderedField F] [FloorRing F] : binary32_round (0 : F) = 0 := by
  rw [binary32_round_of_nonneg 0 le_rfl, binary32_round_abs_zero]

/-- Rounding on a binade. -/
theorem binary32_round_eq {F : Type} [LinearOrderedField F] [FloorRing F] (x : F) (e : Int) (n : Int) (hx : 0 < x) (h1 : (2 : F) ^ e ≤ x)
    (h2 : x < (2 : F) ^ (e + 1)) (he : -126 ≤ e)
    (hn1 : (n : F) - 1 / 2 < x / (2 : F) ^ (e - 23))
    (hn2 : x / (2 : F) ^ (e - 23) < (n : F) + 1 / 2) :
    binary32_round x = (n : F) * (2 : F) ^ (e - 23) := by
  rw [binary32_round_of_nonneg x hx.le]
  unfold binary32_round_abs
  rw [binary32_exponent_eq x e hx h1 h2 he, round_half_even_eq _ n hn1 hn2]

theorem binary32_round_two_zpow {F : Type} [LinearOrderedField F] [FloorRing F] (k : Int) (hk : -126 ≤ k) :
    binary32_round ((2 : F) ^ k) = (2 : F) ^ k := by
  have hu := two_zpow_pos (F := F) (k - 23)
  have hq : (2 : F) ^ k / (2 : F) ^ (k - 23) = ((2 ^ 23 : Int) : F) := by
    rw [div_eq_iff hu.ne', show k = 23 + (k - 23) by ring, zpow_add₀ (by norm_num)]
    norm_num
  rw [binary32_round_eq ((2 : F) ^ k) k (2 ^ 23) (two_zpow_pos k) le_rfl
    (zpow_lt_zpow_right₀ (by norm_num) (by omega)) hk (by rw [hq]; linarith) (by rw [hq]; linarith)]
  rw [show k = 23 + (k - 23) by ring, zpow_add₀ (by norm_num)]
  norm_num

theorem binary32_round_one {F : Type} [LinearOrderedField F] [FloorRing F] :
    binary32_round (1 : F) = 1 := by
  have h := binary32_round_two_zpow (F := F) 0 (by norm_num)
  simpa using h

/-- Rounding keeps non-negative numbers non-negative. -/
theorem binary32_round_nonneg {F : Type} [LinearOrderedField F] [FloorRing F] (x : F)
    (hx : 0 ≤ x) : 0 ≤ binary32_round x := by
  have h := binary32_round_mono 0 x le_rfl hx
  rwa [binary32_round_zero] at h

/-- Below 2 the rounding error is at most half a unit of the last place of 1. -/
theorem binary32_round_error {F : Type} [LinearOrderedField F] [FloorRing F] (x : F)
    (hx : 0 ≤ x) (h2 : x < 2) : |binary32_round x - x| ≤ 1 / 2 ^ 24 := by
  rcases eq_or_lt_of_le hx with h0 | hpos
  · rw [← h0, binary32_round_zero]
    norm_num
  · rw [binary32_round_of_nonneg x hx]
    unfold binary32_round_abs
    have he : binary32_exponent x ≤ 0 := by
      have hlog : Int.log 2 x < 1 := by
        rw [← Int.lt_zpow_iff_log_lt (by norm_num) hpos]
        simpa using h2
      unfold binary32_exponent
      omega
    have hu := two_zpow_pos (F := F) (binary32_exponent x - 23)
    have hu2 : (2 : F) ^ (binary32_exponent x - 23) ≤ 1 / 2 ^ 23 := by
      have h := two_zpow_le (F := F) (binary32_exponent x - 23) (-23) (by omega)
      have e : (2 : F) ^ (-23 : Int) = 1 / 2 ^ 23 := by
        rw [zpow_neg, one_div]
        norm_cast
      rwa [e] at h
    have hr := round_half_even_abs_sub (x / (2 : F) ^ (binary32_exponent x - 23))
    have hx2 : x = x / (2 : F) ^ (binary32_exponent x - 23) * (2 : F) ^ (binary32_exponent x - 23) := by
      rw [div_mul_cancel₀ _ hu.ne']
    have key : (round_half_even (x / (2 : F) ^ (binary32_exponent x - 23)) : F)
          * (2 : F) ^ (binary32_exponent x - 23) - x
        = ((round_half_even (x / (2 : F) ^ (binary32_exponent x - 23)) : F)
            - x / (2 : F) ^ (binary32_exponent x - 23)) * (2 : F) ^ (binary32_exponent x - 23) := by
      rw [sub_mul, div_mul_cancel₀ _ hu.ne']
    rw [key, abs_mul, abs_of_pos hu]
    calc |(round_half_even (x / (2 : F) ^ (binary32_exponent x - 23)) : F)
            - x / (2 : F) ^ (binary32_exponent x - 23)| * (2 : F) ^ (binary32_exponent x - 23)
        ≤ 1 / 2 * (1 / 2 ^ 23) := mul_le_mul hr hu2 hu.le (by norm_num)
      _ = 1 / 2 ^ 24 := by norm_num

/-- A magnitude below half the smallest subnormal rounds to zero. -/
theorem binary32_round_tiny {F : Type} [LinearOrderedField F] [FloorRing F] (x : F)
    (hx : 0 ≤ x) (h : x < (2 : F) ^ (-150 : Int)) : binary32_round x = 0 := by
  rcases eq_or_lt_of_le hx with h0 | hpos
  · rw [← h0, binary32_round_zero]
  · rw [binary32_round_of_nonneg x hx]
    unfold binary32_round_abs
    have he : binary32_exponent x = -126 := by
      have hlog : Int.log 2 x < -126 := by
        rw [← Int.lt_zpow_iff_log_lt (by norm_num) hpos]
        have := two_zpow_le (F := F) (-150) (-126) (by norm_num)
        simp only [Nat.cast_ofNat]
        exact lt_of_lt_of_le h this
      unfold binary32_exponent
      omega
    rw [he]
    have hu := two_zpow_pos (F := F) (-126 - 23)
    have hq : x / (2 : F) ^ (-126 - 23 : Int) < 1 / 2 := by
      rw [div_lt_iff₀ hu]
      have e : (1 / 2 : F) * (2 : F) ^ (-126 - 23 : Int) = (2 : F) ^ (-150 : Int) := by
        rw [show (-126 - 23 : Int) = 1 + (-150) by norm_num, zpow_add₀ (by norm_num)]
        norm_num
      rw [e]
      exact h
    have hq0 : 0 ≤ x / (2 : F) ^ (-126 - 23 : Int) := div_nonneg hx hu.le
    rw [round_half_even_eq _ 0 (by push_cast; linarith) (by push_cast; linarith)]
    simp

/-- Adding less than half a unit of the last place to 1 rounds back to 1. -/
theorem binary32_round_one_add {F : Type} [LinearOrderedField F] [FloorRing F] (r : F)
    (hr : 0 ≤ r) (h : r < 1 / 2 ^ 24) : binary32_round (1 + r) = 1 := by
  have h24 : (1 : F) / 2 ^ 24 < 1 := by norm_num
  have hu : (2 : F) ^ (0 - 23 : Int) = 1 / 2 ^ 23 := by
    rw [show (0 - 23 : Int) = -23 by norm_num, zpow_neg, one_div]
    norm_cast
  have hq : (1 + r) / (2 : F) ^ (0 - 23 : Int) = (1 + r) * 2 ^ 23 := by
    rw [hu]
    field_simp
  rw [binary32_round_eq (1 + r) 0 (2 ^ 23) (by linarith) (by simpa using hr)
    (by norm_num; linarith) (by norm_num)
    (by rw [hq]; push_cast; nlinarith) (by rw [hq]; push_cast; nlinarith), hu]
  push_cast
  norm_num

/-- The `float` literal `0.003921569f` of line 88 is the binary32 number
`8421505 / 2^31`. -/
theorem binary32_round_scale :
    binary32_round (3921569 / 1000000000 : ℚ) = 8421505 / 2147483648 := by
  rw [binary32_round_eq (3921569 / 1000000000 : ℚ) (-8) 8421505 (by norm_num) (by norm_num)
    (by norm_num) (by norm_num) (by norm_num) (by norm_num)]
  norm_num

theorem binary32_round_byte7 :
    binary32_round (7 * (8421505 / 2147483648) : ℚ) = 7368817 / 268435456 := by
  rw [binary32_round_eq (7 * (8421505 / 2147483648) : ℚ) (-6) 14737634 (by norm_num)
    (by norm_num) (by norm_num) (by norm_num) (by norm_num) (by norm_num)]
  norm_num

theorem binary32_round_7_div_255 :
    binary32_round (7 / 255 : ℚ) = 14737633 / 536870912 := by
  rw [binary32_round_eq (7 / 255 : ℚ) (-6) 14737633 (by norm_num)
    (by norm_num) (by norm_num) (by norm_num) (by norm_num) (by norm_num)]
  norm_num

/-- The binary32 product of a byte and the scale constant: it lies in `[0, 1]` and
within `2^-23` of `b / 255`. -/
theorem byte_scaled_range (b : Fin 256) :
    0 ≤ binary32_round ((b.val : ℚ) * (8421505 / 2147483648)) ∧
    binary32_round ((b.val : ℚ) * (8421505 / 2147483648)) ≤ 1 ∧
    |binary32_round ((b.val : ℚ) * (8421505 / 2147483648)) - (b.val : ℚ) / 255| ≤ 1 / 2 ^ 23 := by
  have h0 : (0 : ℚ) ≤ (b.val : ℚ) := Nat.cast_nonneg _
  have h255 : (b.val : ℚ) ≤ 255 := by exact_mod_cast Nat.le_of_lt_succ b.isLt
  have hx0 : (0 : ℚ) ≤ (b.val : ℚ) * (8421505 / 2147483648) := by positivity
  have hx1 : (b.val : ℚ) * (8421505 / 2147483648) ≤ 1 + 127 / 2147483648 := by linarith
  have htop : binary32_round (1 + 127 / 2147483648 : ℚ) = 1 :=
    binary32_round_one_add (127 / 2147483648 : ℚ) (by norm_num) (by norm_num)
  have hle := binary32_round_mono _ _ hx0 hx1
  rw [htop] at hle
  have herr := binary32_round_error ((b.val : ℚ) * (8421505 / 2147483648)) hx0 (by linarith)
  refine ⟨binary32_round_nonneg _ hx0, hle, ?_⟩
  rw [abs_le] at herr ⊢
  constructor <;> norm_num at herr ⊢ <;> linarith

/-! ## C4: size and range of the tensor -/

/-- C4, as stated, fails: for a 1440×960 frame of stride 1440 filled with the
byte 7 the staged tensor has `1440*960` values, and its first value, the binary32
product of 7 and the binary32 constant `0.003921569f`, is `7368817 / 2^28`: it is
not `7/255`, and not even the binary32 number nearest to `7/255`. -/
theorem tensor_value_not_byte_over_255 :
    ∃ s2 : DMonitoringModelState ℚ,
      dmonitoring_stage binary32_round 0
        { is_rhd := false, net_input_buf := [], calib := [], output := [],
          m := { calib_len := 0, image_len := 0 } }
        (List.replicate (1440 * 960) (7 : Fin 256)) 1440 960 1440 [] = some s2 ∧
      (engine_input s2).image.length = 1440 * 960 ∧
      load (List.replicate (1440 * 960) (7 : Fin 256)) 0 = some 7 ∧
      ∃ x : ℚ, (engine_input s2).image[0]? = some x ∧ x = 7368817 / 268435456 ∧
        x ≠ 7 / 255 ∧ x ≠ binary32_round (7 / 255) := by
  obtain ⟨s2, hs2⟩ := dmonitoring_stage_total (F := ℚ) binary32_round 0
    { is_rhd := false, net_input_buf := [], calib := [], output := [],
      m := { calib_len := 0, image_len := 0 } }
    (List.replicate (1440 * 960) (7 : Fin 256)) 1440 960 1440 []
    (fun r c hr hc => by
      refine load_some_of_bounds _ _ ?_ ?_ <;>
      · simp only [ MODEL_HEIGHT, MODEL_WIDTH, Nat.cast_ofNat, sub_self, Int.zero_tdiv, zero_add,
          add_zero, List.length_replicate] at hr hc ⊢
        omega)
    (Nat.zero_le _) (Nat.zero_le _)
  obtain ⟨hlen, hval⟩ := engine_input_image binary32_round 0 _ s2 _ 1440 960 1440 [] hs2
  obtain ⟨b, hb, hv⟩ := hval 0 (Nat.mul_pos (by decide) (by decide))
  have hb7 : b = 7 := load_replicate _ _ _ _ hb
  subst hb7
  have hload : load (List.replicate (1440 * 960) (7 : Fin 256)) 0 = some 7 := by
    rw [show (0 : Int) = ((0 : Nat) : Int) from rfl, load_natCast, List.getElem?_replicate,
      if_pos (by norm_num)]
  have e7 : (((7 : Fin 256) : Nat) : ℚ) = 7 := rfl
  rw [e7, binary32_round_scale, binary32_round_byte7] at hv
  refine ⟨s2, hs2, hlen, hload, _, hv, rfl, by norm_num, ?_⟩
  rw [binary32_round_7_div_255]
  norm_num

/-- C4, amended. For any frame whose crop window lies inside the frame buffer
(and calibration arrays of `CALIB_LEN` elements) the tensor handed to the engine
has exactly `1440*960` values, and value `k` is the binary32 product of the
source byte `b` of the crop window and the binary32 constant `0.003921569f`
(`8421505 / 2^31`); it lies in the closed interval `[0,1]` and is within `2^-23`
of `b/255`. -/
theorem tensor_size_and_range (CALIB_LEN : Nat) (s : DMonitoringModelState ℚ)
    (stream_buf : List (Fin 256)) (width height stride : Int) (calib : List ℚ)
    (hin : ∀ r c : Nat, r < MODEL_HEIGHT → c < MODEL_WIDTH →
      0 ≤ (height - (MODEL_HEIGHT : Int) + r) * stride
          + (width - (MODEL_WIDTH : Int)).tdiv 2 + c ∧
      (height - (MODEL_HEIGHT : Int) + r) * stride
          + (width - (MODEL_WIDTH : Int)).tdiv 2 + c < stream_buf.length)
    (hsrc : CALIB_LEN ≤ calib.length) (hdst : CALIB_LEN ≤ s.calib.length) :
    binary32_round (3921569 / 1000000000 : ℚ) = 8421505 / 2147483648 ∧
    ∃ s2 : DMonitoringModelState ℚ,
      dmonitoring_stage binary32_round CALIB_LEN s stream_buf width height stride calib
        = some s2 ∧
      (engine_input s2).image.length = 1440 * 960 ∧
      ∀ k : Nat, k < 1440 * 960 →
        ∃ (b : Fin 256) (v : ℚ),
          load stream_buf ((height - 960 + (k / 1440 : Nat)) * stride
            + (width - 1440).tdiv 2 + (k % 1440 : Nat)) = some b ∧
          (engine_input s2).image[k]? = some v ∧
          v = binary32_round ((b.val : ℚ) * binary32_round (3921569 / 1000000000)) ∧
          0 ≤ v ∧ v ≤ 1 ∧ |v - (b.val : ℚ) / 255| ≤ 1 / 2 ^ 23 := by
  refine ⟨binary32_round_scale, ?_⟩
  obtain ⟨s2, hs2⟩ := dmonitoring_stage_total binary32_round CALIB_LEN s stream_buf width height
    stride calib
    (fun r c hr hc => load_some_of_bounds _ _ (hin r c hr hc).1 (hin r c hr hc).2) hsrc hdst
  obtain ⟨hlen, hval⟩ := engine_input_image binary32_round CALIB_LEN s s2 stream_buf width height
    stride calib hs2
  refine ⟨s2, hs2, hlen, fun k hk => ?_⟩
  obtain ⟨b, hb, hv⟩ := hval k hk
  obtain ⟨h0, h1, herr⟩ := byte_scaled_range b
  refine ⟨b, _, hb, hv, rfl, ?_, ?_, ?_⟩ <;> rw [binary32_round_scale]
  · exact h0
  · exact h1
  · exact herr

/-- Witness for C4 (amended): a 1440×960 frame of stride 1440 filled with the byte 7. -/
theorem tensor_size_and_range_witness :
    ∃ s2 : DMonitoringModelState ℚ,
      dmonitoring_stage binary32_round 0
        { is_rhd := false, net_input_buf := [], calib := [], output := [],
          m := { calib_len := 0, image_len := 0 } }
        (List.replicate (1440 * 960) (7 : Fin 256)) 1440 960 1440 [] = some s2 ∧
      (engine_input s2).image.length = 1440 * 960 := by
  obtain ⟨_, s2, hs2, hlen, _⟩ := tensor_size_and_range 0
    { is_rhd := false, net_input_buf := [], calib := [], output := [],
      m := { calib_len := 0, image_len := 0 } }
    (List.replicate (1440 * 960) (7 : Fin 256)) 1440 960 1440 []
    (fun r c hr hc => by
      simp only [ MODEL_HEIGHT, MODEL_WIDTH, Nat.cast_ofNat, sub_self, Int.zero_tdiv, zero_add,
        add_zero, List.length_replicate] at hr hc ⊢
      constructor <;> omega)
    (Nat.zero_le _) (Nat.zero_le _)
  exact ⟨s2, hs2, hlen⟩

/-! ## C5 and C6: ranges and the value at zero -/

/-- With a rounding that is monotone on the non-negative numbers and fixes 0 and 1,
and a non-negative `exp`, `sigmoid` stays in the closed interval `[0, 1]`. -/
theorem sigmoid_mem_unit {F : Type} [LinearOrderedField F] (fl exp : F → F)
    (hmono : ∀ x y : F, 0 ≤ x → x ≤ y → fl x ≤ fl y) (h0 : fl 0 = 0) (h1 : fl 1 = 1)
    (hexp : ∀ x : F, 0 ≤ exp x) (x : F) :
    0 ≤ sigmoid fl exp x ∧ sigmoid fl exp x ≤ 1 := by
  unfold sigmoid
  have he := hexp (-x)
  have ha : 1 ≤ fl (1 + exp (-x)) := by
    have h := hmono 1 (1 + exp (-x)) zero_le_one (by linarith)
    rwa [h1] at h
  have hs0 : 0 ≤ 1 / fl (1 + exp (-x)) := by positivity
  have hs1 : 1 / fl (1 + exp (-x)) ≤ 1 := by
    rw [div_le_one (by linarith)]
    exact ha
  constructor
  · have h := hmono 0 _ le_rfl hs0
    rwa [h0] at h
  · have h := hmono _ 1 hs0 hs1
    rwa [h1] at h

theorem sigmoid_binary32_mem_unit (x : ℝ) :
    0 ≤ sigmoid binary32_round (fun y => binary32_round (Real.exp y)) x ∧
    sigmoid binary32_round (fun y => binary32_round (Real.exp y)) x ≤ 1 :=
  sigmoid_mem_unit binary32_round (fun y => binary32_round (Real.exp y)) binary32_round_mono
    binary32_round_zero binary32_round_one
    (fun y => binary32_round_nonneg _ (Real.exp_pos y).le) x

theorem two_pow_le_exp (n : Nat) : (2 : ℝ) ^ n ≤ Real.exp n := by
  have h2 : (2 : ℝ) ≤ Real.exp 1 := by
    have h := Real.add_one_le_exp (1 : ℝ)
    linarith
  have e : Real.exp (n : ℝ) = Real.exp 1 ^ n := by
    rw [← Real.exp_nat_mul, mul_one]
  rw [e]
  exact pow_le_pow_left₀ (by norm_num) h2 n

theorem exp_neg_le_two_zpow (n : Nat) : Real.exp (-(n : ℝ)) ≤ (2 : ℝ) ^ (-(n : Int)) := by
  rw [Real.exp_neg, zpow_neg, zpow_natCast]
  exact inv_anti₀ (by positivity) (two_pow_le_exp n)

/-- In binary32 `sigmoid(100.0f)` is exactly `1.0f`. -/
theorem sigmoid_binary32_100 :
    sigmoid binary32_round (fun y => binary32_round (Real.exp y)) (100 : ℝ) = 1 := by
  have hsmall : Real.exp (-100) ≤ (2 : ℝ) ^ (-25 : Int) := by
    have h := exp_neg_le_two_zpow 100
    have h2 : (2 : ℝ) ^ (-((100 : Nat) : Int)) ≤ (2 : ℝ) ^ (-25 : Int) :=
      two_zpow_le _ _ (by norm_num)
    have e : (-((100 : Nat) : ℝ)) = (-100 : ℝ) := by norm_num
    rw [e] at h
    exact le_trans h h2
  have hr0 : 0 ≤ binary32_round (Real.exp (-100)) :=
    binary32_round_nonneg _ (Real.exp_pos _).le
  have hr1 : binary32_round (Real.exp (-100)) ≤ (2 : ℝ) ^ (-25 : Int) := by
    have h := binary32_round_mono _ _ (Real.exp_pos (-100)).le hsmall
    rwa [binary32_round_two_zpow (-25) (by norm_num)] at h
  have hlt : binary32_round (Real.exp (-100)) < 1 / 2 ^ 24 := by
    have e : (2 : ℝ) ^ (-25 : Int) = 1 / 2 ^ 25 := by
      rw [zpow_neg, one_div]
      norm_cast
    rw [e] at hr1
    have : (1 : ℝ) / 2 ^ 25 < 1 / 2 ^ 24 := by norm_num
    linarith
  unfold sigmoid
  simp only []
  rw [binary32_round_one_add _ hr0 hlt, div_one, binary32_round_one]

/-- In binary32 `exp(-200.0f)` underflows to `0.0f`. -/
theorem exp_binary32_neg_200 : binary32_round (Real.exp (-200)) = 0 := by
  apply binary32_round_tiny _ (Real.exp_pos _).le
  have h := exp_neg_le_two_zpow 200
  have e : (-((200 : Nat) : ℝ)) = (-200 : ℝ) := by norm_num
  rw [e] at h
  have h2 : (2 : ℝ) ^ (-((200 : Nat) : Int)) < (2 : ℝ) ^ (-150 : Int) :=
    zpow_lt_zpow_right₀ (by norm_num) (by norm_num)
  exact lt_of_le_of_lt h h2

theorem index_table_in_closed_range (REG_SCALE : ℝ) (V : List ℝ) (o : Nat) :
    probabilities_in_closed_range
      (index_table REG_SCALE binary32_round (fun y => binary32_round (Real.exp y)) V o) := by
  have hs := sigmoid_binary32_mem_unit
  have he : ∀ y : ℝ, 0 ≤ binary32_round (Real.exp y) :=
    fun y => binary32_round_nonneg _ (Real.exp_pos y).le
  refine ⟨hs _, hs _, hs _, hs _, hs _, hs _, hs _, ?_, ?_, ?_, ?_⟩
  · intro i
    fin_cases i <;> exact hs _
  · intro i
    fin_cases i <;> exact hs _
  · intro i
    fin_cases i <;> exact he _
  · intro i
    fin_cases i <;> exact he _

/-- C5, as stated, fails: for the output vector that is 0 except `V[6] = -200` and
`V[12] = 100`, the decode in binary32 returns `face_prob = 1` (not below 1) and
`face_orientation_std[0] = 0` (not above 0), so the strict bounds do not hold. -/
theorem decoded_fields_reach_bounds :
    ∃ res : DMonitoringModelResult ℝ,
      dmonitoring_decode (1 / 4) binary32_round (fun y => binary32_round (Real.exp y))
        (((List.replicate 84 (0 : ℝ)).set 12 100).set 6 (-200)) 0 0 = some res ∧
      res.driver_state_lhd.face_prob = 1 ∧
      res.driver_state_lhd.face_orientation_std 0 = 0 ∧
      ¬ probabilities_in_range res.driver_state_lhd := by
  have hlen : (((List.replicate 84 (0 : ℝ)).set 12 100).set 6 (-200)).length = OUTPUT_SIZE := by
    rw [List.length_set, List.length_set, List.length_replicate]
    rfl
  have h12 : (((List.replicate 84 (0 : ℝ)).set 12 100).set 6 (-200)).getD (0 + 12) 0 = 100 := by
    rw [List.getD_eq_getElem?_getD, List.getElem?_set_ne (by norm_num),
      List.getElem?_set_self (by rw [List.length_replicate]; norm_num)]
    rfl
  have h6 : (((List.replicate 84 (0 : ℝ)).set 12 100).set 6 (-200)).getD (0 + 6) 0 = -200 := by
    rw [List.getD_eq_getElem?_getD,
      List.getElem?_set_self (by rw [List.length_set, List.length_replicate]; norm_num)]
    rfl
  have hp : (index_table (1 / 4 : ℝ) binary32_round (fun y => binary32_round (Real.exp y))
      (((List.replicate 84 (0 : ℝ)).set 12 100).set 6 (-200)) 0).face_prob = 1 := by
    show sigmoid binary32_round (fun y => binary32_round (Real.exp y)) _ = 1
    rw [h12]
    exact sigmoid_binary32_100
  have hstd : (index_table (1 / 4 : ℝ) binary32_round (fun y => binary32_round (Real.exp y))
      (((List.replicate 84 (0 : ℝ)).set 12 100).set 6 (-200)) 0).face_orientation_std 0 = 0 := by
    show binary32_round (Real.exp _) = 0
    rw [h6]
    exact exp_binary32_neg_200
  refine ⟨_, dmonitoring_decode_some (1 / 4) binary32_round
    (fun y => binary32_round (Real.exp y)) _ 0 0 hlen, hp, hstd, ?_⟩
  intro hrange
  have hlt : (index_table (1 / 4 : ℝ) binary32_round (fun y => binary32_round (Real.exp y))
      (((List.replicate 84 (0 : ℝ)).set 12 100).set 6 (-200)) 0).face_prob < 1 := hrange.1.2
  rw [hp] at hlt
  exact lt_irrefl _ hlt

/-- C5, amended. For every real-valued output vector `V` (84 values) the decode in
binary32 succeeds, its two blocks are `parse_driver_data` at offsets 0 and 41,
every probability field of both blocks and the scalars `poor_vision` and
`wheel_on_right` lie in the closed interval `[0, 1]`, and every
`face_orientation_std` and `face_position_std` component is non-negative: rounding
lets a probability reach an end of the interval and lets `exp` underflow to 0. -/
theorem decoded_fields_in_range (REG_SCALE : ℝ) (V : List ℝ) (t1 t2 : ℝ)
    (hV : V.length = 84) :
    ∃ res : DMonitoringModelResult ℝ,
      dmonitoring_decode REG_SCALE binary32_round (fun y => binary32_round (Real.exp y)) V t1 t2
        = some res ∧
      parse_driver_data REG_SCALE binary32_round (fun y => binary32_round (Real.exp y))
        DriverStateResult.zero V 0 = some res.driver_state_lhd ∧
      parse_driver_data REG_SCALE binary32_round (fun y => binary32_round (Real.exp y))
        DriverStateResult.zero V 41 = some res.driver_state_rhd ∧
      probabilities_in_closed_range res.driver_state_lhd ∧
      probabilities_in_closed_range res.driver_state_rhd ∧
      (0 ≤ res.poor_vision ∧ res.poor_vision ≤ 1) ∧
      (0 ≤ res.wheel_on_right ∧ res.wheel_on_right ≤ 1) := by
  refine ⟨_, dmonitoring_decode_some REG_SCALE binary32_round
      (fun y => binary32_round (Real.exp y)) V t1 t2 hV, ?_, ?_,
    index_table_in_closed_range REG_SCALE V 0, index_table_in_closed_range REG_SCALE V 41,
    sigmoid_binary32_mem_unit _, sigmoid_binary32_mem_unit _⟩
  · exact parse_driver_data_some REG_SCALE binary32_round _ _ V 0 (by omega)
  · exact parse_driver_data_some REG_SCALE binary32_round _ _ V 41 (by omega)

/-- Witness for C5 (amended): the all-zero output vector. -/
theorem decoded_fields_in_range_witness :
    ∃ res : DMonitoringModelResult ℝ,
      dmonitoring_decode (1 / 4) binary32_round (fun y => binary32_round (Real.exp y))
        (List.replicate 84 (0 : ℝ)) 0 0 = some res ∧
      probabilities_in_closed_range res.driver_state_lhd ∧
      probabilities_in_closed_range res.driver_state_rhd ∧
      (0 ≤ res.poor_vision ∧ res.poor_vision ≤ 1) ∧
      (0 ≤ res.wheel_on_right ∧ res.wheel_on_right ≤ 1) := by
  obtain ⟨res, h, _, _, h1, h2, h3, h4⟩ :=
    decoded_fields_in_range (1 / 4) (List.replicate 84 (0 : ℝ)) 0 0 (List.length_replicate _ _)
  exact ⟨res, h, h1, h2, h3, h4⟩

/-- The value of `sigmoid` at 0 when `exp 0 = 1` and the rounding leaves 2 and
1/2 unchanged. -/
theorem sigmoid_zero {F : Type} [Field F] (fl exp : F → F) (hexp : exp 0 = 1) (h2 : fl 2 = 2)
    (hhalf : fl (1 / 2) = 1 / 2) : sigmoid fl exp 0 = 1 / 2 := by
  unfold sigmoid
  rw [neg_zero, hexp, one_add_one_eq_two, h2, hhalf]

/-- C6. For every real-valued output vector `V` (84 values), with the exact
arithmetic of the reals as well as with binary32 rounding (any `exp` with
`exp 0 = 1` and any rounding that leaves 2 and 1/2 unchanged): if `V[34] = 0` the
decoded `driver_state_lhd.occluded_prob` is 0.5, if `V[75] = 0` the decoded
`driver_state_rhd.occluded_prob` is 0.5, and if `V[82] = 0` and `V[83] = 0` then
`poor_vision = wheel_on_right = 0.5`. -/
theorem decoded_zero_is_half (REG_SCALE : ℝ) (fl exp : ℝ → ℝ) (V : List ℝ) (t1 t2 : ℝ)
    (hexp : exp 0 = 1) (h2 : fl 2 = 2) (hhalf : fl (1 / 2) = 1 / 2) (hV : V.length = 84) :
    ∃ res : DMonitoringModelResult ℝ,
      dmonitoring_decode REG_SCALE fl exp V t1 t2 = some res ∧
      (V[34]? = some 0 → res.driver_state_lhd.occluded_prob = 1 / 2) ∧
      (V[75]? = some 0 → res.driver_state_rhd.occluded_prob = 1 / 2) ∧
      (V[82]? = some 0 → V[83]? = some 0 →
        res.poor_vision = 1 / 2 ∧ res.wheel_on_right = 1 / 2) := by
  have hget : ∀ k : Nat, V[k]? = some 0 → V.getD k 0 = 0 := fun k hk => by
    rw [List.getD_eq_getElem?_getD, hk]
    rfl
  have hs := sigmoid_zero fl exp hexp h2 hhalf
  refine ⟨_, dmonitoring_decode_some REG_SCALE fl exp V t1 t2 hV, ?_, ?_, ?_⟩
  · intro h
    show sigmoid fl exp (V.getD (0 + 34) 0) = 1 / 2
    rw [hget _ h, hs]
  · intro h
    show sigmoid fl exp (V.getD (41 + 34) 0) = 1 / 2
    rw [hget _ h, hs]
  · intro h82 h83
    show sigmoid fl exp (V.getD 82 0) = 1 / 2 ∧ sigmoid fl exp (V.getD 83 0) = 1 / 2
    rw [hget _ h82, hget _ h83, hs]
    exact ⟨rfl, rfl⟩

/-- Witness for C6: in binary32 the all-zero output vector decodes to 0.5 in all
four places. -/
theorem decoded_zero_is_half_witness :
    ∃ res : DMonitoringModelResult ℝ,
      dmonitoring_decode (1 / 4) binary32_round (fun y => binary32_round (Real.exp y))
        (List.replicate 84 (0 : ℝ)) 0 0 = some res ∧
      res.driver_state_lhd.occluded_prob = 1 / 2 ∧
      res.driver_state_rhd.occluded_prob = 1 / 2 ∧
      res.poor_vision = 1 / 2 ∧ res.wheel_on_right = 1 / 2 := by
  have hexp : (fun y : ℝ => binary32_round (Real.exp y)) 0 = 1 := by
    show binary32_round (Real.exp 0) = 1
    rw [Real.exp_zero, binary32_round_one]
  have h2 : binary32_round (2 : ℝ) = 2 := by
    have h := binary32_round_two_zpow (F := ℝ) 1 (by norm_num)
    simpa using h
  have hhalf : binary32_round (1 / 2 : ℝ) = 1 / 2 := by
    have h := binary32_round_two_zpow (F := ℝ) (-1) (by norm_num)
    have e : (2 : ℝ) ^ (-1 : Int) = 1 / 2 := by norm_num
    rwa [e] at h
  obtain ⟨res, h, h34, h75, h8⟩ :=
    decoded_zero_is_half (1 / 4) binary32_round (fun y => binary32_round (Real.exp y))
      (List.replicate 84 (0 : ℝ)) 0 0 hexp h2 hhalf (List.length_replicate _ _)
  have hz : ∀ k : Nat, k < 84 → (List.replicate 84 (0 : ℝ))[k]? = some 0 := fun k hk => by
    rw [List.getElem?_replicate, if_pos hk]
  exact ⟨res, h, h34 (hz 34 (by norm_num)), h75 (hz 75 (by norm_num)),
    h8 (hz 82 (by norm_num)) (hz 83 (by norm_num))⟩

/-! ## Whole calls of `dmonitoring_eval_frame` -/

/-- A completed call in terms of its three phases: staging, `execute()`, decoding. -/
theorem dmonitoring_eval_frame_eq_some {F : Type} [Field F] (CALIB_LEN : Nat) (REG_SCALE : F)
    (fl exp : F → F) (execute : EngineInput F → List F) (t1 t2 : F)
    (s s2 : DMonitoringModelState F) (res : DMonitoringModelResult F)
    (stream_buf : List (Fin 256)) (width height stride uv_offset : Int) (calib : List F)
    (h : dmonitoring_eval_frame CALIB_LEN REG_SCALE fl exp execute t1 t2 s stream_buf width height
      stride uv_offset calib = some (res, s2)) :
    ∃ s1, dmonitoring_stage fl CALIB_LEN s stream_buf width height stride calib = some s1 ∧
      s2 = { s1 with output := execute (engine_input s1) } ∧
      dmonitoring_decode REG_SCALE fl exp (execute (engine_input s1)) t1 t2 = some res := by
  simp only [dmonitoring_eval_frame, Option.bind_eq_bind, Option.bind_eq_some, bind, pure,
    Option.some.injEq, Prod.mk.injEq] at h
  obtain ⟨s1, hs1, r, hr, hrr, hs⟩ := h
  exact ⟨s1, hs1, hs.symm, hrr ▸ hr⟩

/-- A call succeeds when the crop window lies inside the frame buffer, both
calibration arrays hold `CALIB_LEN` elements and the engine fills an output
vector of `OUTPUT_SIZE` elements. -/
theorem dmonitoring_eval_frame_total {F : Type} [Field F] (CALIB_LEN : Nat) (REG_SCALE : F)
    (fl exp : F → F) (execute : EngineInput F → List F) (t1 t2 : F)
    (s : DMonitoringModelState F) (stream_buf : List (Fin 256))
    (width height stride uv_offset : Int) (calib : List F)
    (hin : ∀ r c : Nat, r < MODEL_HEIGHT → c < MODEL_WIDTH →
      ∃ b, load stream_buf ((height - (MODEL_HEIGHT : Int) + r) * stride
          + (width - (MODEL_WIDTH : Int)).tdiv 2 + c) = some b)
    (hsrc : CALIB_LEN ≤ calib.length) (hdst : CALIB_LEN ≤ s.calib.length)
    (hexec : ∀ x, (execute x).length = OUTPUT_SIZE) :
    ∃ res s2, dmonitoring_eval_frame CALIB_LEN REG_SCALE fl exp execute t1 t2 s stream_buf width
      height stride uv_offset calib = some (res, s2) := by
  obtain ⟨s1, hs1⟩ :=
    dmonitoring_stage_total fl CALIB_LEN s stream_buf width height stride calib hin hsrc hdst
  have hdec := dmonitoring_decode_some REG_SCALE fl exp (execute (engine_input s1)) t1 t2 (hexec _)
  simp only [dmonitoring_eval_frame, hs1, hdec, Option.bind_eq_bind, Option.some_bind, bind, pure]
  exact ⟨_, _, rfl⟩

/-- One completed call leaves the scratch buffer with the larger of its previous
length and `MODEL_WIDTH * MODEL_HEIGHT`. -/
theorem dmonitoring_eval_frame_buf_length {F : Type} [Field F] (CALIB_LEN : Nat)
    (REG_SCALE : F) (fl exp : F → F) (execute : EngineInput F → List F) (t1 t2 : F)
    (s s2 : DMonitoringModelState F) (res : DMonitoringModelResult F)
    (stream_buf : List (Fin 256)) (width height stride uv_offset : Int) (calib : List F)
    (h : dmonitoring_eval_frame CALIB_LEN REG_SCALE fl exp execute t1 t2 s stream_buf width height
      stride uv_offset calib = some (res, s2)) :
    s2.net_input_buf.length = max s.net_input_buf.length (MODEL_WIDTH * MODEL_HEIGHT) := by
  obtain ⟨s1, hs1, hs2, _⟩ := dmonitoring_eval_frame_eq_some CALIB_LEN REG_SCALE fl exp execute t1 t2
    s s2 res stream_buf width height stride uv_offset calib h
  obtain ⟨buf, cal, hbuf, _, hs⟩ :=
    dmonitoring_stage_eq_some fl CALIB_LEN s s1 stream_buf width height stride calib hs1
  subst hs2
  subst hs
  exact (dmonitoring_preprocess_inv fl s.net_input_buf buf stream_buf width height stride hbuf).1

/-- Along a sequence of completed calls the scratch buffer never shrinks, and after
at least one call it holds `MODEL_WIDTH * MODEL_HEIGHT` elements. -/
theorem eval_frames_buf_length {F : Type} [Field F] (CALIB_LEN : Nat) (REG_SCALE : F)
    (fl exp : F → F) (execute : EngineInput F → List F) :
    ∀ (calls : List (FrameCall F)) (s s2 : DMonitoringModelState F),
      eval_frames CALIB_LEN REG_SCALE fl exp execute s calls = some s2 →
      s.net_input_buf.length ≤ s2.net_input_buf.length ∧
      (calls ≠ [] → MODEL_WIDTH * MODEL_HEIGHT ≤ s2.net_input_buf.length)
  | [], s, s2, h => by
    simp only [eval_frames, Option.some.injEq] at h
    subst h
    exact ⟨le_refl _, fun hne => absurd rfl hne⟩
  | c :: cs, s, s2, h => by
    simp only [eval_frames, Option.bind_eq_some] at h
    obtain ⟨⟨res, s1⟩, h1, hrest⟩ := h
    have hlen := dmonitoring_eval_frame_buf_length CALIB_LEN REG_SCALE fl exp execute c.t1 c.t2 s s1
      res c.stream_buf c.width c.height c.stride c.uv_offset c.calib h1
    obtain ⟨hmono, _⟩ := eval_frames_buf_length CALIB_LEN REG_SCALE fl exp execute cs s1 s2 hrest
    have ha : s.net_input_buf.length ≤ s1.net_input_buf.length := by
      rw [hlen]
      exact le_max_left _ _
    have hb : MODEL_WIDTH * MODEL_HEIGHT ≤ s1.net_input_buf.length := by
      rw [hlen]
      exact le_max_right _ _
    exact ⟨le_trans ha hmono, fun _ => le_trans hb hmono⟩

theorem eval_frames_append {F : Type} [Field F] (CALIB_LEN : Nat) (REG_SCALE : F)
    (fl exp : F → F) (execute : EngineInput F → List F) :
    ∀ (pre post : List (FrameCall F)) (s : DMonitoringModelState F),
      eval_frames CALIB_LEN REG_SCALE fl exp execute s (pre ++ post)
        = (eval_frames CALIB_LEN REG_SCALE fl exp execute s pre).bind
            (fun s1 => eval_frames CALIB_LEN REG_SCALE fl exp execute s1 post)
  | [], post, s => by simp only [List.nil_append, eval_frames, Option.some_bind]
  | c :: cs, post, s => by
    simp only [List.cons_append, eval_frames]
    cases dmonitoring_eval_frame CALIB_LEN REG_SCALE fl exp execute c.t1 c.t2 s c.stream_buf
      c.width c.height c.stride c.uv_offset c.calib with
    | none => rfl
    | some r =>
      simp only [Option.some_bind]
      exact eval_frames_append CALIB_LEN REG_SCALE fl exp execute cs post r.2

/-! ## C7: the scratch buffer only grows -/

/-- C7. `get_buffer` leaves a buffer with length `max (old length) n`: grown to
exactly `n` when it was shorter, untouched otherwise, with the first old-length
elements unchanged.  Consequently, along any sequence of completed
`dmonitoring_eval_frame` calls (whatever the frame sizes) the length of
`net_input_buf` is non-decreasing from every intermediate state to the next, and
after the first call it is at least `1440*960`. -/
theorem scratch_buffer_never_shrinks {F : Type} [Field F] (buf : List F) (n : Nat)
    (CALIB_LEN : Nat) (REG_SCALE : F) (fl exp : F → F) (execute : EngineInput F → List F)
    (calls : List (FrameCall F)) (s s2 : DMonitoringModelState F)
    (h : eval_frames CALIB_LEN REG_SCALE fl exp execute s calls = some s2) :
    ((get_buffer buf n).length = max buf.length n ∧
      (buf.length < n → (get_buffer buf n).length = n) ∧
      (n ≤ buf.length → get_buffer buf n = buf) ∧
      ∀ j : Nat, j < buf.length → (get_buffer buf n)[j]? = buf[j]?) ∧
    s.net_input_buf.length ≤ s2.net_input_buf.length ∧
    (calls ≠ [] → 1440 * 960 ≤ s2.net_input_buf.length) ∧
    ∀ pre post : List (FrameCall F), calls = pre ++ post →
      ∃ s1, eval_frames CALIB_LEN REG_SCALE fl exp execute s pre = some s1 ∧
        eval_frames CALIB_LEN REG_SCALE fl exp execute s1 post = some s2 ∧
        s.net_input_buf.length ≤ s1.net_input_buf.length ∧
        s1.net_input_buf.length ≤ s2.net_input_buf.length := by
  refine ⟨⟨get_buffer_length buf n, fun hlt => ?_, fun hle => ?_, get_buffer_prefix buf n⟩,
    (eval_frames_buf_length CALIB_LEN REG_SCALE fl exp execute calls s s2 h).1,
    (eval_frames_buf_length CALIB_LEN REG_SCALE fl exp execute calls s s2 h).2, ?_⟩
  · rw [get_buffer_length]
    exact max_eq_right (Nat.le_of_lt hlt)
  · unfold get_buffer
    rw [if_neg (by omega)]
  · intro pre post hcalls
    subst hcalls
    rw [eval_frames_append, Option.bind_eq_some] at h
    obtain ⟨s1, hpre, hpost⟩ := h
    exact ⟨s1, hpre, hpost,
      (eval_frames_buf_length CALIB_LEN REG_SCALE fl exp execute pre s s1 hpre).1,
      (eval_frames_buf_length CALIB_LEN REG_SCALE fl exp execute post s1 s2 hpost).1⟩

/-- Witness for C7: one call on a 1440×960 frame, starting from an empty scratch
buffer, with an engine that fills 84 zeros. -/
theorem scratch_buffer_never_shrinks_witness :
    ∃ s2 : DMonitoringModelState ℚ,
      eval_frames 0 (1 / 4 : ℚ) binary32_round (fun x => x + 1) (fun _ => List.replicate 84 0)
        { is_rhd := false, net_input_buf := [], calib := [], output := [],
          m := { calib_len := 0, image_len := 0 } }
        [{ stream_buf := List.replicate (1440 * 960) (7 : Fin 256), width := 1440,
           height := 960, stride := 1440, uv_offset := 0, calib := [], t1 := 0, t2 := 1 }]
        = some s2 ∧
      1440 * 960 ≤ s2.net_input_buf.length := by
  obtain ⟨res, s2, h⟩ := dmonitoring_eval_frame_total 0 (1 / 4 : ℚ) binary32_round (fun x => x + 1)
    (fun _ => List.replicate 84 0) 0 1
    { is_rhd := false, net_input_buf := [], calib := [], output := [],
      m := { calib_len := 0, image_len := 0 } }
    (List.replicate (1440 * 960) (7 : Fin 256)) 1440 960 1440 0 []
    (fun r c hr hc => by
      refine load_some_of_bounds _ _ ?_ ?_ <;>
      · simp only [ MODEL_HEIGHT, MODEL_WIDTH, Nat.cast_ofNat, sub_self, Int.zero_tdiv, zero_add,
          add_zero, List.length_replicate] at hr hc ⊢
        omega)
    (Nat.zero_le _) (Nat.zero_le _) (fun _ => List.length_replicate _ _)
  have hs : eval_frames 0 (1 / 4 : ℚ) binary32_round (fun x => x + 1) (fun _ => List.replicate 84 0)
      { is_rhd := false, net_input_buf := [], calib := [], output := [],
        m := { calib_len := 0, image_len := 0 } }
      [{ stream_buf := List.replicate (1440 * 960) (7 : Fin 256), width := 1440,
         height := 960, stride := 1440, uv_offset := 0, calib := [], t1 := 0, t2 := 1 }]
      = some s2 := by
    simp only [eval_frames, h, Option.some_bind]
  exact ⟨s2, hs, (scratch_buffer_never_shrinks ([] : List ℚ) 0 0 (1 / 4 : ℚ) binary32_round (fun x => x + 1)
    (fun _ => List.replicate 84 0) _ _ s2 hs).2.2.1 (List.cons_ne_nil _ _)⟩

/-! ## C10: the calibration vector reaches the engine unchanged -/

/-- C10. For every input `calib` and every prior state (with the frame's crop
window inside its buffer and both calibration arrays holding `CALIB_LEN`
elements), the state at the moment `dmonitoring_eval_frame` calls `execute()`
satisfies `s->calib[i] = calib[i]` for every `i < CALIB_LEN`, every other element
of the calibration storage keeps its previous value and the storage keeps its
length; with the registration made by `dmonitoring_init` the calibration the
engine reads is exactly the first `CALIB_LEN` input values, and a completed call
runs `execute()` on that state. -/
theorem calibration_forwarded {F : Type} [Field F] (fl : F → F) (CALIB_LEN : Nat)
    (s : DMonitoringModelState F) (stream_buf : List (Fin 256))
    (width height stride : Int) (calib : List F)
    (hin : ∀ r c : Nat, r < MODEL_HEIGHT → c < MODEL_WIDTH →
      0 ≤ (height - (MODEL_HEIGHT : Int) + r) * stride
          + (width - (MODEL_WIDTH : Int)).tdiv 2 + c ∧
      (height - (MODEL_HEIGHT : Int) + r) * stride
          + (width - (MODEL_WIDTH : Int)).tdiv 2 + c < stream_buf.length)
    (hsrc : CALIB_LEN ≤ calib.length) (hdst : CALIB_LEN ≤ s.calib.length) :
    ∃ s1 : DMonitoringModelState F,
      dmonitoring_stage fl CALIB_LEN s stream_buf width height stride calib = some s1 ∧
      s1.calib.length = s.calib.length ∧
      (∀ i : Nat, i < CALIB_LEN → s1.calib[i]? = calib[i]?) ∧
      (∀ j : Nat, CALIB_LEN ≤ j → s1.calib[j]? = s.calib[j]?) ∧
      (∀ (IsRHD : Bool) (s0 : DMonitoringModelState F),
        (dmonitoring_init CALIB_LEN IsRHD s0).m.calib_len = CALIB_LEN) ∧
      (s.m.calib_len = CALIB_LEN → (engine_input s1).calib = calib.take CALIB_LEN) ∧
      ∀ (REG_SCALE : F) (exp : F → F) (execute : EngineInput F → List F) (t1 t2 : F)
        (uv_offset : Int) (res : DMonitoringModelResult F) (s2 : DMonitoringModelState F),
        dmonitoring_eval_frame CALIB_LEN REG_SCALE fl exp execute t1 t2 s stream_buf width height
          stride uv_offset calib = some (res, s2) →
        s2.output = execute (engine_input s1) ∧ s2.calib = s1.calib := by
  obtain ⟨s1, hs1⟩ := dmonitoring_stage_total fl CALIB_LEN s stream_buf width height stride calib
    (fun r c hr hc => load_some_of_bounds _ _ (hin r c hr hc).1 (hin r c hr hc).2) hsrc hdst
  obtain ⟨buf, cal, _, hcal, hs⟩ :=
    dmonitoring_stage_eq_some fl CALIB_LEN s s1 stream_buf width height stride calib hs1
  obtain ⟨hlen, hcopy, hrest⟩ := calib_copy_inv calib s.calib cal CALIB_LEN hcal
  have hcopy2 : ∀ i : Nat, i < CALIB_LEN → cal[i]? = calib[i]? := fun i hi => by
    obtain ⟨x, hx, hv⟩ := hcopy i hi
    rw [hx, hv]
  refine ⟨s1, hs1, ?_, ?_, ?_, fun _ _ => rfl, ?_, ?_⟩
  · rw [hs]
    exact hlen
  · rw [hs]
    exact hcopy2
  · rw [hs]
    exact hrest
  · intro hreg
    rw [hs]
    simp only [engine_input, hreg]
    apply List.ext_getElem?
    intro i
    rw [List.getElem?_take, List.getElem?_take]
    split
    · exact hcopy2 i (by assumption)
    · rfl
  · intro REG_SCALE exp execute t1 t2 uv_offset res s2 h
    obtain ⟨s1b, hs1b, hs2, _⟩ := dmonitoring_eval_frame_eq_some CALIB_LEN REG_SCALE fl exp execute
      t1 t2 s s2 res stream_buf width height stride uv_offset calib h
    rw [hs1] at hs1b
    cases Option.some.inj hs1b
    rw [hs2]
    exact ⟨rfl, rfl⟩

/-- Witness for C10: three calibration values copied into a state initialised by
`dmonitoring_init`, for a 1440×960 frame. -/
theorem calibration_forwarded_witness :
    ∃ s1 : DMonitoringModelState ℚ,
      dmonitoring_stage binary32_round 3
        (dmonitoring_init 3 false
          ({ is_rhd := false, net_input_buf := [], calib := [0, 0, 0], output := [],
             m := { calib_len := 0, image_len := 0 } } : DMonitoringModelState ℚ))
        (List.replicate (1440 * 960) (7 : Fin 256)) 1440 960 1440 [5, 6, 7] = some s1 ∧
      (engine_input s1).calib = List.take 3 [5, 6, 7] := by
  obtain ⟨s1, hs1, _, _, _, _, hreg, _⟩ := calibration_forwarded binary32_round 3
    (dmonitoring_init 3 false
      ({ is_rhd := false, net_input_buf := [], calib := [0, 0, 0], output := [],
         m := { calib_len := 0, image_len := 0 } } : DMonitoringModelState ℚ))
    (List.replicate (1440 * 960) (7 : Fin 256)) 1440 960 1440 ([5, 6, 7] : List ℚ)
    (fun r c hr hc => by
      simp only [ MODEL_HEIGHT, MODEL_WIDTH, Nat.cast_ofNat, sub_self, Int.zero_tdiv, zero_add,
        add_zero, List.length_replicate] at hr hc ⊢
      constructor <;> omega)
    (le_refl 3) (le_refl 3)
  exact ⟨s1, hs1, hreg rfl⟩

/-! ## C8 and C9: the published message -/

/-- C8. For every call of `dmonitoring_publish`: with the export flag off the
message has no raw-predictions field (`none`, not an empty byte sequence); with
the flag on the field is present and holds four bytes per float of `raw_pred`, so
336 bytes for the 84-float model output vector.  The message goes to the channel
`driverState`. -/
theorem publish_raw_predictions {F : Type} [Field F] (bytes_of : F → Fin 4 → Fin 256)
    (frame_id : Nat) (model_res : DMonitoringModelResult F) (execution_time : F)
    (raw_pred : List F) :
    (dmonitoring_publish false bytes_of frame_id model_res execution_time raw_pred).2.rawPredictions
        = none ∧
    (dmonitoring_publish false bytes_of frame_id model_res execution_time raw_pred).2.rawPredictions
        ≠ some [] ∧
    (∃ bytes : List (Fin 256),
      (dmonitoring_publish true bytes_of frame_id model_res execution_time
        raw_pred).2.rawPredictions = some bytes ∧
      bytes.length = 4 * raw_pred.length ∧
      (raw_pred.length = OUTPUT_SIZE → bytes.length = 336)) ∧
    ∀ flag : Bool,
      (dmonitoring_publish flag bytes_of frame_id model_res execution_time raw_pred).1
        = "driverState" := by
  have hbytes : (asBytes bytes_of raw_pred).length = 4 * raw_pred.length := by
    unfold asBytes
    induction raw_pred with
    | nil => rfl
    | cons x xs ih =>
      rw [List.flatMap_cons, List.length_append, ih, List.length_ofFn, List.length_cons]
      omega
  refine ⟨rfl, fun h => Option.noConfusion h, ⟨asBytes bytes_of raw_pred, rfl, hbytes, ?_⟩, ?_⟩
  · intro h84
    rw [hbytes, h84]
    rfl
  · intro flag
    cases flag <;> rfl

/-- The two blocks of a decoded result are the decodes at offsets 0 and 41. -/
theorem dmonitoring_decode_blocks {F : Type} [Field F] (REG_SCALE : F) (fl exp : F → F)
    (V : List F) (t1 t2 : F) (res : DMonitoringModelResult F)
    (h : dmonitoring_decode REG_SCALE fl exp V t1 t2 = some res) :
    parse_driver_data REG_SCALE fl exp DriverStateResult.zero V 0 = some res.driver_state_lhd ∧
    parse_driver_data REG_SCALE fl exp DriverStateResult.zero V 41 = some res.driver_state_rhd := by
  simp only [dmonitoring_decode, Option.bind_eq_bind, Option.bind_eq_some, bind, pure,
    Option.some.injEq] at h
  obtain ⟨lhd, hl, rhd, hr, x82, _, x83, _, hres⟩ := h
  subst hres
  exact ⟨hl, hr⟩

/-- C9. For every `DMonitoringModelResult`, frame id and execution time, the
message built by `dmonitoring_publish` carries `frameId = frame_id`,
`modelExecutionTime = execution_time`, `dspExecutionTime`, `poorVision` and
`wheelOnRight` from the result, `driverDataLH` filled field for field from
`driver_state_lhd` and `driverDataRH` from `driver_state_rhd`, each of the 13
driver-data fields copied unchanged into the same-named message field; and in a
decoded result `driver_state_lhd` is the offset-0 block, `driver_state_rhd` the
offset-41 block. -/
theorem publish_copies_fields {F : Type} [Field F] (send_raw_pred : Bool)
    (bytes_of : F → Fin 4 → Fin 256) (frame_id : Nat) (model_res : DMonitoringModelResult F)
    (execution_time : F) (raw_pred : List F) :
    (dmonitoring_publish send_raw_pred bytes_of frame_id model_res execution_time raw_pred).2.frameId
        = frame_id ∧
    (dmonitoring_publish send_raw_pred bytes_of frame_id model_res execution_time
        raw_pred).2.modelExecutionTime = execution_time ∧
    (dmonitoring_publish send_raw_pred bytes_of frame_id model_res execution_time
        raw_pred).2.dspExecutionTime = model_res.dsp_execution_time ∧
    (dmonitoring_publish send_raw_pred bytes_of frame_id model_res execution_time
        raw_pred).2.poorVision = model_res.poor_vision ∧
    (dmonitoring_publish send_raw_pred bytes_of frame_id model_res execution_time
        raw_pred).2.wheelOnRight = model_res.wheel_on_right ∧
    (dmonitoring_publish send_raw_pred bytes_of frame_id model_res execution_time
        raw_pred).2.driverDataLH =
        { faceOrientation := List.ofFn model_res.driver_state_lhd.face_orientation
          faceOrientationStd := List.ofFn model_res.driver_state_lhd.face_orientation_std
          facePosition := List.ofFn model_res.driver_state_lhd.face_position
          facePositionStd := List.ofFn model_res.driver_state_lhd.face_position_std
          faceProb := model_res.driver_state_lhd.face_prob
          leftEyeProb := model_res.driver_state_lhd.left_eye_prob
          rightEyeProb := model_res.driver_state_lhd.right_eye_prob
          leftBlinkProb := model_res.driver_state_lhd.left_blink_prob
          rightBlinkProb := model_res.driver_state_lhd.right_blink_prob
          sunglassesProb := model_res.driver_state_lhd.sunglasses_prob
          occludedProb := model_res.driver_state_lhd.occluded_prob
          readyProb := List.ofFn model_res.driver_state_lhd.ready_prob
          notReadyProb := List.ofFn model_res.driver_state_lhd.not_ready_prob } ∧
    (dmonitoring_publish send_raw_pred bytes_of frame_id model_res execution_time
        raw_pred).2.driverDataRH =
        { faceOrientation := List.ofFn model_res.driver_state_rhd.face_orientation
          faceOrientationStd := List.ofFn model_res.driver_state_rhd.face_orientation_std
          facePosition := List.ofFn model_res.driver_state_rhd.face_position
          facePositionStd := List.ofFn model_res.driver_state_rhd.face_position_std
          faceProb := model_res.driver_state_rhd.face_prob
          leftEyeProb := model_res.driver_state_rhd.left_eye_prob
          rightEyeProb := model_res.driver_state_rhd.right_eye_prob
          leftBlinkProb := model_res.driver_state_rhd.left_blink_prob
          rightBlinkProb := model_res.driver_state_rhd.right_blink_prob
          sunglassesProb := model_res.driver_state_rhd.sunglasses_prob
          occludedProb := model_res.driver_state_rhd.occluded_prob
          readyProb := List.ofFn model_res.driver_state_rhd.ready_prob
          notReadyProb := List.ofFn model_res.driver_state_rhd.not_ready_prob } ∧
    ∀ (REG_SCALE : F) (fl exp : F → F) (V : List F) (t1 t2 : F),
      dmonitoring_decode REG_SCALE fl exp V t1 t2 = some model_res →
      parse_driver_data REG_SCALE fl exp DriverStateResult.zero V 0
        = some model_res.driver_state_lhd ∧
      parse_driver_data REG_SCALE fl exp DriverStateResult.zero V 41
        = some model_res.driver_state_rhd := by
  refine ⟨?_, ?_, ?_, ?_, ?_, ?_, ?_, fun REG_SCALE fl exp V t1 t2 h =>
    dmonitoring_decode_blocks REG_SCALE fl exp V t1 t2 model_res h⟩ <;>
  · cases send_raw_pred <;> rfl

/-! ## C12, C13, C14: geometry of the crop window -/

/-- The row loop of the preprocessing reads row `r` at `stride * v_off + r * stride + h_off`. -/
theorem dmonitoring_preprocess_offsets {F : Type} [Field F] (fl : F → F) (net_input_buf : List F)
    (stream_buf : List (Fin 256)) (width height stride : Int) :
    dmonitoring_preprocess fl net_input_buf stream_buf width height stride
      = forLoop (fun r buf =>
          ByteToFloat fl stream_buf (stride * v_off height + r * stride + h_off width) buf
            (r * MODEL_WIDTH) (fl (3921569 / 1000000000)) MODEL_WIDTH) MODEL_HEIGHT
          (get_buffer net_input_buf (MODEL_WIDTH * MODEL_HEIGHT)) :=
  rfl

theorem h_off_eq_ediv (width : Int) (hw : 1440 ≤ width) : h_off width = (width - 1440) / 2 := by
  unfold h_off
  exact Int.tdiv_eq_ediv (by simp only [ MODEL_WIDTH, Nat.cast_ofNat]; omega) (by norm_num)

theorem v_off_eq (height : Int) : v_off height = height - 960 := rfl

/-- C12, as stated, fails: a frame of width 1439 and height 960 is smaller than
the model, yet both crop offsets are 0, because the C++ division truncates
`(1439 - 1440) / 2` to 0. -/
theorem narrow_frame_offsets_not_negative :
    ((1439 : Int) < 1440 ∨ (960 : Int) < 960) ∧
    v_off 960 = 0 ∧ h_off 1439 = 0 ∧ ¬ (v_off 960 < 0 ∨ h_off 1439 < 0) := by
  decide

/-- C12, amended. A crop offset of `dmonitoring_eval_frame` is negative exactly
when `height < 960` (then `v_off < 0`) or `width ≤ 1438` (then `h_off < 0`); in
particular every frame with `height < 960` or `width < 1439` has a negative
offset, and a frame of width 1439 has `h_off = 0`. -/
theorem small_frame_offsets_negative (width height : Int)
    (hsmall : width < 1439 ∨ height < 960) :
    (v_off height < 0 ∨ h_off width < 0) ∧
    (v_off height < 0 ↔ height < 960) ∧
    (h_off width < 0 ↔ width < 1439) ∧
    h_off 1439 = 0 := by
  have hv : v_off height < 0 ↔ height < 960 := by
    rw [v_off_eq]
    omega
  have hh : h_off width < 0 ↔ width < 1439 := by
    unfold h_off
    simp only [ MODEL_WIDTH, Nat.cast_ofNat]
    rcases le_or_lt 1440 width with h | h
    · rw [Int.tdiv_eq_ediv (by omega) (by norm_num)]
      omega
    · have e : (width - 1440).tdiv 2 = -((1440 - width) / 2) := by
        rw [show width - 1440 = -(1440 - width) by ring, Int.neg_tdiv,
          Int.tdiv_eq_ediv (by omega) (by norm_num)]
      rw [e]
      omega
  refine ⟨?_, hv, hh, by decide⟩
  rcases hsmall with h | h
  · exact Or.inr (hh.mpr h)
  · exact Or.inl (hv.mpr h)

/-- Witness for C12 (amended): a 1280×720 frame. -/
theorem small_frame_offsets_negative_witness :
    ((1280 : Int) < 1439 ∨ (720 : Int) < 960) ∧ (v_off 720 < 0 ∨ h_off 1280 < 0) :=
  ⟨by decide, (small_frame_offsets_negative 1280 720 (by decide)).1⟩

/-- C13. For every frame with `width ≥ 1440` and `height ≥ 960` the crop window is
bottom-aligned and horizontally centred: the first tensor row is read from source
row `height − 960` and the last (`r = 959`) from the last source row
`height − 1`, in every completed preprocessing; the discarded left margin `h_off`
and right margin `width − 1440 − h_off` satisfy `left ≤ right ≤ left + 1`, with
equality when `width − 1440` is even. -/
theorem crop_window_geometry {F : Type} [Field F] (fl : F → F) (net_input_buf : List F)
    (stream_buf : List (Fin 256)) (width height stride : Int)
    (hw : 1440 ≤ width) (hh : 960 ≤ height) :
    v_off height + 0 = height - 960 ∧
    v_off height + 959 = height - 1 ∧
    0 ≤ v_off height ∧
    0 ≤ h_off width ∧
    h_off width ≤ width - 1440 - h_off width ∧
    width - 1440 - h_off width ≤ h_off width + 1 ∧
    ((width - 1440) % 2 = 0 → h_off width = width - 1440 - h_off width) ∧
    ∀ buf : List F,
      dmonitoring_preprocess fl net_input_buf stream_buf width height stride = some buf →
      ∀ c : Nat, c < 1440 →
        (∃ b : Fin 256,
          load stream_buf ((height - 960) * stride + h_off width + c) = some b ∧
          buf[0 * 1440 + c]? = some (fl ((b.val : F) * fl (3921569 / 1000000000)))) ∧
        (∃ b : Fin 256,
          load stream_buf ((height - 1) * stride + h_off width + c) = some b ∧
          buf[959 * 1440 + c]? = some (fl ((b.val : F) * fl (3921569 / 1000000000)))) := by
  have he := h_off_eq_ediv width hw
  have hv := v_off_eq height
  refine ⟨by omega, by omega, by omega, by omega, by omega, by omega, fun _ => by omega, ?_⟩
  intro buf hbuf c hc
  have hrows :=
    (dmonitoring_preprocess_inv fl net_input_buf buf stream_buf width height stride hbuf).2.1
  constructor
  · obtain ⟨b, hb, hval⟩ := hrows 0 c (by decide) hc
    have e : (height - 960) * stride + h_off width + (c : Int)
        = (height - (MODEL_HEIGHT : Int) + ((0 : Nat) : Int)) * stride
          + (width - (MODEL_WIDTH : Int)).tdiv 2 + c := by
      simp only [h_off, MODEL_HEIGHT, Nat.cast_ofNat, Nat.cast_zero, add_zero]
    rw [← e] at hb
    exact ⟨b, hb, hval⟩
  · obtain ⟨b, hb, hval⟩ := hrows 959 c (by decide) hc
    have e : (height - 1) * stride + h_off width + (c : Int)
        = (height - (MODEL_HEIGHT : Int) + ((959 : Nat) : Int)) * stride
          + (width - (MODEL_WIDTH : Int)).tdiv 2 + c := by
      simp only [h_off, MODEL_HEIGHT, Nat.cast_ofNat]
      ring
    rw [← e] at hb
    exact ⟨b, hb, hval⟩

/-- Witness for C13: a 1928×1208 frame has `v_off = 248` and margins 244 and 244. -/
theorem crop_window_geometry_witness :
    v_off 1208 + 959 = 1208 - 1 ∧ h_off 1928 ≤ 1928 - 1440 - h_off 1928 ∧
    1928 - 1440 - h_off 1928 ≤ h_off 1928 + 1 := by
  obtain ⟨_, h1, _, _, h2, h3, _⟩ := crop_window_geometry binary32_round ([] : List ℚ) [] 1928 1208 1928
    (by decide) (by decide)
  exact ⟨h1, h2, h3⟩

/-- C14. For every frame with `width ≥ 1440`, `height ≥ 960` and `stride ≥ width`,
every source byte index `(v_off + r)*stride + h_off + c` read by the preprocessing
loop (`r < 960`, `c < 1440`) satisfies `0 ≤ index < stride*height` and its column
`h_off + c` lies in `[0, width)`; so for a frame buffer of at least
`stride*height` bytes no bounds-checked read fails and the preprocessing returns
a tensor. -/
theorem crop_reads_in_bounds {F : Type} [Field F] (fl : F → F) (width height stride : Int)
    (hw : 1440 ≤ width) (hh : 960 ≤ height) (hs : width ≤ stride) :
    (∀ r c : Nat, r < 960 → c < 1440 →
      0 ≤ (v_off height + r) * stride + h_off width + c ∧
      (v_off height + r) * stride + h_off width + c < stride * height ∧
      0 ≤ h_off width + c ∧ h_off width + c < width) ∧
    ∀ stream_buf : List (Fin 256), stride * height ≤ stream_buf.length →
      (∀ r c : Nat, r < 960 → c < 1440 →
        ∃ b, load stream_buf ((v_off height + r) * stride + h_off width + c) = some b) ∧
      ∀ net_input_buf : List F, ∃ buf : List F,
        dmonitoring_preprocess fl net_input_buf stream_buf width height stride = some buf := by
  have he := h_off_eq_ediv width hw
  have hv := v_off_eq height
  have hidx : ∀ r c : Nat, r < 960 → c < 1440 →
      0 ≤ (v_off height + r) * stride + h_off width + c ∧
      (v_off height + r) * stride + h_off width + c < stride * height ∧
      0 ≤ h_off width + c ∧ h_off width + c < width := by
    intro r c hr hc
    have hrow0 : 0 ≤ v_off height + r := by omega
    have hrow1 : v_off height + r ≤ height - 1 := by omega
    have hst : 0 ≤ stride := by omega
    have hm0 : 0 ≤ (v_off height + r) * stride := mul_nonneg hrow0 hst
    have hm1 : (v_off height + r) * stride ≤ (height - 1) * stride :=
      mul_le_mul_of_nonneg_right hrow1 hst
    have hexp : (height - 1) * stride = stride * height - stride := by ring
    refine ⟨by omega, by omega, by omega, by omega⟩
  refine ⟨hidx, fun stream_buf hlen => ?_⟩
  have hload : ∀ r c : Nat, r < 960 → c < 1440 →
      ∃ b, load stream_buf ((v_off height + r) * stride + h_off width + c) = some b :=
    fun r c hr hc => load_some_of_bounds _ _ (hidx r c hr hc).1
      (lt_of_lt_of_le (hidx r c hr hc).2.1 hlen)
  exact ⟨hload, fun net_input_buf =>
    dmonitoring_preprocess_total fl net_input_buf stream_buf width height stride hload⟩

/-- Witness for C14: a 1928×1208 frame of stride 1928 in a buffer of
`1928*1208` bytes is preprocessed without a failing read. -/
theorem crop_reads_in_bounds_witness :
    ∃ buf : List ℚ,
      dmonitoring_preprocess binary32_round ([] : List ℚ) (List.replicate (1928 * 1208) (7 : Fin 256))
        1928 1208 1928 = some buf :=
  ((crop_reads_in_bounds (F := ℚ) binary32_round 1928 1208 1928 (by decide) (by decide) (by decide)).2
    (List.replicate (1928 * 1208) (7 : Fin 256))
    (by rw [List.length_replicate]; norm_num)).2 []

/-! ## C15 and C16: what the decode reads -/

theorem load_set_ne {α : Type} (V : List α) (j : Nat) (x : α) (i : Int) (h : i ≠ (j : Int)) :
    load (V.set j x) i = load V i := by
  unfold load
  split
  · rfl
  · exact List.getElem?_set_ne (by omega)

set_option maxHeartbeats 4000000 in
/-- Every index of the read set is really read: when the decode returns a record,
each of them was inside the vector. -/
theorem parse_driver_data_reads_defined {F : Type} [Field F] (REG_SCALE : F) (fl exp : F → F)
    (ds_res r : DriverStateResult F) (V : List F) (o : Int)
    (h : parse_driver_data REG_SCALE fl exp ds_res V o = some r) :
    ∀ i ∈ parse_driver_data_reads o, ∃ x, load V i = some x := by
  simp only [parse_driver_data, forLoop, Option.bind_eq_bind, Option.some_bind, bind, pure] at h
  simp only [Nat.cast_zero, Nat.cast_one, Nat.cast_ofNat, add_zero, zero_add, Nat.cast_add,
    add_assoc] at h
  norm_num only at h
  have key : ∀ i : Int, (load V i = none → False) → ∃ x, load V i = some x := fun i hi => by
    cases hk : load V i with
    | some x => exact ⟨x, rfl⟩
    | none => exact absurd hk hi
  intro i hi
  simp only [parse_driver_data_reads, decode_indices, List.map_cons, List.map_nil, List.mem_cons,
    List.mem_singleton, List.not_mem_nil, or_false] at hi
  rcases hi with rfl | rfl | rfl | rfl | rfl | rfl | rfl | rfl | rfl | rfl | rfl | rfl | rfl | rfl | rfl | rfl | rfl | rfl | rfl | rfl | rfl | rfl | rfl
  all_goals
    apply key
    intro hk
    simp only [Nat.cast_zero, Nat.cast_one, Nat.cast_ofNat, add_zero] at hk
    simp [hk] at h

/-- The decode of the whole vector depends on it only through the reads of
`dmonitoring_decode_reads`. -/
theorem dmonitoring_decode_congr {F : Type} [Field F] (REG_SCALE : F) (fl exp : F → F)
    (V V2 : List F) (t1 t2 : F)
    (H : ∀ i ∈ dmonitoring_decode_reads, load V i = load V2 i) :
    dmonitoring_decode REG_SCALE fl exp V t1 t2 = dmonitoring_decode REG_SCALE fl exp V2 t1 t2 := by
  have hmem : ∀ (o : Int) (k : Nat), k ∈ decode_indices → o + (k : Int) ∈ parse_driver_data_reads o :=
    fun o k hk => List.mem_map.mpr ⟨k, hk, rfl⟩
  have h0 : ∀ ds, parse_driver_data REG_SCALE fl exp ds V 0 = parse_driver_data REG_SCALE fl exp ds V2 0 :=
    fun ds => parse_driver_data_congr REG_SCALE fl exp ds V V2 0 0 (fun k hk =>
      H _ (List.mem_append_left _ (List.mem_append_left _ (hmem 0 k hk))))
  have h41 : ∀ ds, parse_driver_data REG_SCALE fl exp ds V 41
      = parse_driver_data REG_SCALE fl exp ds V2 41 :=
    fun ds => parse_driver_data_congr REG_SCALE fl exp ds V V2 41 41 (fun k hk =>
      H _ (List.mem_append_left _ (List.mem_append_right _ (hmem 41 k hk))))
  have h82 : load V 82 = load V2 82 :=
    H 82 (List.mem_append_right _ (List.mem_cons_self _ _))
  have h83 : load V 83 = load V2 83 :=
    H 83 (List.mem_append_right _ (List.mem_cons_of_mem _ (List.mem_cons_self _ _)))
  simp only [dmonitoring_decode, h0, h41, h82, h83]

/-- C15. For an output vector of length 84 every index read by the decode of
`dmonitoring_eval_frame` (both `parse_driver_data` calls and the indices 82 and
83) lies in `[0, 84)`: the offset-0 block reads only indices in `[0, 41)`, the
offset-41 block only indices in `[41, 82)`, so the two blocks and the two shared
scalars read pairwise disjoint index sets; every bounds-checked read succeeds and
the decode returns a result.  The listed indices are the reads of the code: the
results depend on the vector through them only, and each of them must be inside
the vector for `parse_driver_data` to return. -/
theorem decode_reads_in_bounds {F : Type} [Field F] (REG_SCALE : F) (fl exp : F → F)
    (V : List F) (t1 t2 : F) (hV : V.length = 84) :
    (∀ i ∈ dmonitoring_decode_reads, 0 ≤ i ∧ i < 84) ∧
    (∀ i ∈ parse_driver_data_reads 0, 0 ≤ i ∧ i < 41) ∧
    (∀ i ∈ parse_driver_data_reads 41, 41 ≤ i ∧ i < 82) ∧
    (∀ i ∈ parse_driver_data_reads 0, i ∉ parse_driver_data_reads 41 ∧ i ≠ 82 ∧ i ≠ 83) ∧
    (∀ i ∈ parse_driver_data_reads 41, i ≠ 82 ∧ i ≠ 83) ∧
    (∀ i ∈ dmonitoring_decode_reads, ∃ x, load V i = some x) ∧
    (∃ res, dmonitoring_decode REG_SCALE fl exp V t1 t2 = some res) ∧
    (∀ V2 : List F, (∀ i ∈ dmonitoring_decode_reads, load V i = load V2 i) →
      dmonitoring_decode REG_SCALE fl exp V t1 t2 = dmonitoring_decode REG_SCALE fl exp V2 t1 t2) ∧
    (∀ (ds r : DriverStateResult F) (W : List F) (o : Int),
      parse_driver_data REG_SCALE fl exp ds W o = some r →
      ∀ i ∈ parse_driver_data_reads o, ∃ x, load W i = some x) := by
  have hall : ∀ i ∈ dmonitoring_decode_reads, 0 ≤ i ∧ i < 84 := by decide
  refine ⟨hall, by decide, by decide, by decide, by decide, ?_,
    ⟨_, dmonitoring_decode_some REG_SCALE fl exp V t1 t2 hV⟩,
    fun V2 H => dmonitoring_decode_congr REG_SCALE fl exp V V2 t1 t2 H,
    fun ds r W o h => parse_driver_data_reads_defined REG_SCALE fl exp ds r W o h⟩
  intro i hi
  obtain ⟨h0, h1⟩ := hall i hi
  exact load_some_of_bounds V i h0 (by omega)

/-- Witness for C15: the decode of 84 rational values returns a result. -/
theorem decode_reads_in_bounds_witness :
    ∃ res, dmonitoring_decode (1 / 4 : ℚ) binary32_round (fun x => x + 1) (List.replicate 84 (1 : ℚ)) 0 1
      = some res :=
  (decode_reads_in_bounds (1 / 4 : ℚ) binary32_round (fun x => x + 1) (List.replicate 84 (1 : ℚ)) 0 1
    (List.length_replicate _ _)).2.2.2.2.2.2.1

/-- C16. For every offset `o` and any two vectors that agree on the 23 reads at
`o + {0,1,2,3,4,6,7,8,9,10,12,21,30,31,32,33,34,35,36,37,38,39,40}`,
`parse_driver_data` returns the same record; in particular overwriting the vector
at any position that is not one of them (block-relative 5, 11, 13..20, 22..29, or
anywhere outside the block) never changes the decoded record. -/
theorem decode_ignores_other_indices {F : Type} [Field F] (REG_SCALE : F) (fl exp : F → F)
    (ds_res : DriverStateResult F) (V V2 : List F) (o : Int)
    (H : ∀ k ∈ decode_indices, load V (o + (k : Int)) = load V2 (o + (k : Int))) :
    parse_driver_data REG_SCALE fl exp ds_res V o = parse_driver_data REG_SCALE fl exp ds_res V2 o ∧
    decode_indices.length = 23 ∧
    (∀ k ∈ [5, 11, 13, 14, 15, 16, 17, 18, 19, 20, 22, 23, 24, 25, 26, 27, 28, 29],
      k ∉ decode_indices) ∧
    (∀ k ∈ decode_indices, k < 41) ∧
    ∀ (j : Nat) (x : F), (∀ k ∈ decode_indices, o + (k : Int) ≠ (j : Int)) →
      parse_driver_data REG_SCALE fl exp ds_res (V.set j x) o
        = parse_driver_data REG_SCALE fl exp ds_res V o :=
  ⟨parse_driver_data_congr REG_SCALE fl exp ds_res V V2 o o H, rfl, by decide, by decide,
    fun j x hj => parse_driver_data_congr REG_SCALE fl exp ds_res (V.set j x) V o o
      (fun k hk => load_set_ne V j x _ (hj k hk))⟩

/-- Witness for C16: overwriting block-relative position 5 of an 84-element
vector leaves the decode at offset 0 unchanged. -/
theorem decode_ignores_other_indices_witness :
    parse_driver_data (1 / 4 : ℚ) binary32_round (fun x => x + 1) DriverStateResult.zero
        (List.replicate 84 (1 : ℚ)) 0
      = parse_driver_data (1 / 4 : ℚ) binary32_round (fun x => x + 1) DriverStateResult.zero
        ((List.replicate 84 (1 : ℚ)).set 5 9) 0 :=
  (decode_ignores_other_indices (1 / 4 : ℚ) binary32_round (fun x => x + 1) DriverStateResult.zero
    (List.replicate 84 (1 : ℚ)) ((List.replicate 84 (1 : ℚ)).set 5 9) 0
    (fun k hk => (load_set_ne (List.replicate 84 (1 : ℚ)) 5 9 _ (by
      have h5 : k ≠ 5 := fun e => absurd (e ▸ hk) (by decide)
      omega)).symm)).1

/-! ## C11: decoding is a function of the output vector -/

/-- The decode of lines 110–115 as one chain of its four fallible steps. -/
theorem dmonitoring_decode_eq {F : Type} [Field F] (REG_SCALE : F) (fl exp : F → F)
    (V : List F) (t1 t2 : F) :
    dmonitoring_decode REG_SCALE fl exp V t1 t2 =
      (parse_driver_data REG_SCALE fl exp DriverStateResult.zero V 0).bind fun lhd =>
      (parse_driver_data REG_SCALE fl exp DriverStateResult.zero V 41).bind fun rhd =>
      (load V 82).bind fun x82 =>
      (load V 83).bind fun x83 =>
        some { driver_state_lhd := lhd, driver_state_rhd := rhd,
               poor_vision := sigmoid fl exp x82, wheel_on_right := sigmoid fl exp x83,
               dsp_execution_time := (t2 - t1) / 1000 } :=
  rfl

/-- The clock readings only enter the decoded record through `dsp_execution_time`. -/
theorem dmonitoring_decode_clock {F : Type} [Field F] (REG_SCALE : F) (fl exp : F → F)
    (V : List F) (t1 t2 u1 u2 : F) :
    (dmonitoring_decode REG_SCALE fl exp V t1 t2).map
        (fun r => (r.driver_state_lhd, r.driver_state_rhd, r.poor_vision, r.wheel_on_right))
      = (dmonitoring_decode REG_SCALE fl exp V u1 u2).map
        (fun r => (r.driver_state_lhd, r.driver_state_rhd, r.poor_vision, r.wheel_on_right)) := by
  rw [dmonitoring_decode_eq, dmonitoring_decode_eq]
  cases parse_driver_data REG_SCALE fl exp DriverStateResult.zero V 0 with
  | none => rfl
  | some lhd =>
    cases parse_driver_data REG_SCALE fl exp DriverStateResult.zero V 41 with
    | none => rfl
    | some rhd =>
      cases load V 82 with
      | none => rfl
      | some x82 =>
        cases load V 83 with
        | none => rfl
        | some x83 => rfl

/-- The staging prefix carries the `is_rhd` flag along without looking at it. -/
theorem dmonitoring_stage_is_rhd {F : Type} [Field F] (fl : F → F) (CALIB_LEN : Nat)
    (s : DMonitoringModelState F) (stream_buf : List (Fin 256))
    (width height stride : Int) (calib : List F) (b : Bool) :
    dmonitoring_stage fl CALIB_LEN { s with is_rhd := b } stream_buf width height stride calib
      = (dmonitoring_stage fl CALIB_LEN s stream_buf width height stride calib).map
          (fun s1 => { s1 with is_rhd := b }) := by
  simp only [dmonitoring_stage, Option.bind_eq_bind, bind, pure]
  cases dmonitoring_preprocess fl s.net_input_buf stream_buf width height stride with
  | none => rfl
  | some buf =>
    simp only [Option.some_bind]
    cases forLoop (fun i c => (load calib ↑i).bind fun x => store c (↑i) x) CALIB_LEN s.calib with
    | none => rfl
    | some cal => rfl

/-- A call on a state with another `is_rhd` flag returns the same record and the
same state up to that flag. -/
theorem dmonitoring_eval_frame_is_rhd {F : Type} [Field F] (CALIB_LEN : Nat) (REG_SCALE : F)
    (fl exp : F → F) (execute : EngineInput F → List F) (t1 t2 : F)
    (s : DMonitoringModelState F) (stream_buf : List (Fin 256))
    (width height stride uv_offset : Int) (calib : List F) (b : Bool) :
    dmonitoring_eval_frame CALIB_LEN REG_SCALE fl exp execute t1 t2 { s with is_rhd := b }
        stream_buf width height stride uv_offset calib
      = (dmonitoring_eval_frame CALIB_LEN REG_SCALE fl exp execute t1 t2 s stream_buf width height
          stride uv_offset calib).map (fun p => (p.1, { p.2 with is_rhd := b })) := by
  simp only [dmonitoring_eval_frame, dmonitoring_stage_is_rhd, Option.bind_eq_bind, bind, pure]
  cases dmonitoring_stage fl CALIB_LEN s stream_buf width height stride calib with
  | none => rfl
  | some s1 =>
    simp only [Option.map_some', Option.some_bind]
    have he : engine_input { s1 with is_rhd := b } = engine_input s1 := rfl
    rw [he]
    cases dmonitoring_decode REG_SCALE fl exp (execute (engine_input s1)) t1 t2 with
    | none => rfl
    | some r => rfl

/-- C11. Decoding is a function of the output vector and the block offset: for any
two pipeline states that hold the same output vector (whatever their `is_rhd`
flag, calibration storage or scratch buffer) and any offset, `parse_driver_data`
yields identical records and the decoded part of the result (both blocks,
`poor_vision`, `wheel_on_right`) is identical, also between two completed
`dmonitoring_eval_frame` calls that end with the same output vector; and the
`is_rhd` flag influences neither the record a call returns nor the message
published from it. -/
theorem decode_is_pure {F : Type} [Field F] (REG_SCALE : F) (fl exp : F → F)
    (sA sB : DMonitoringModelState F) (hout : sA.output = sB.output) :
    (∀ (ds : DriverStateResult F) (o : Int),
      parse_driver_data REG_SCALE fl exp ds sA.output o
        = parse_driver_data REG_SCALE fl exp ds sB.output o) ∧
    (∀ t1 t2 u1 u2 : F,
      (dmonitoring_decode REG_SCALE fl exp sA.output t1 t2).map
          (fun r => (r.driver_state_lhd, r.driver_state_rhd, r.poor_vision, r.wheel_on_right))
        = (dmonitoring_decode REG_SCALE fl exp sB.output u1 u2).map
          (fun r => (r.driver_state_lhd, r.driver_state_rhd, r.poor_vision, r.wheel_on_right))) ∧
    (∀ (n1 n2 : Nat) (ex1 ex2 : EngineInput F → List F) (t1 t2 u1 u2 : F)
        (buf1 buf2 : List (Fin 256)) (w1 h1 st1 uv1 w2 h2 st2 uv2 : Int) (c1 c2 : List F)
        (rA rB : DMonitoringModelResult F) (sA2 sB2 : DMonitoringModelState F),
      dmonitoring_eval_frame n1 REG_SCALE fl exp ex1 t1 t2 sA buf1 w1 h1 st1 uv1 c1
        = some (rA, sA2) →
      dmonitoring_eval_frame n2 REG_SCALE fl exp ex2 u1 u2 sB buf2 w2 h2 st2 uv2 c2
        = some (rB, sB2) →
      sA2.output = sB2.output →
      rA.driver_state_lhd = rB.driver_state_lhd ∧ rA.driver_state_rhd = rB.driver_state_rhd ∧
      rA.poor_vision = rB.poor_vision ∧ rA.wheel_on_right = rB.wheel_on_right) ∧
    (∀ (n : Nat) (ex : EngineInput F → List F) (t1 t2 : F) (buf : List (Fin 256))
        (w h st uv : Int) (c : List F) (b : Bool),
      dmonitoring_eval_frame n REG_SCALE fl exp ex t1 t2 { sA with is_rhd := b } buf w h st uv c
        = (dmonitoring_eval_frame n REG_SCALE fl exp ex t1 t2 sA buf w h st uv c).map
            (fun p => (p.1, { p.2 with is_rhd := b }))) ∧
    (∀ (n : Nat) (ex : EngineInput F → List F) (t1 t2 : F) (buf : List (Fin 256))
        (w h st uv : Int) (c : List F) (b flag : Bool) (bytes_of : F → Fin 4 → Fin 256)
        (frame_id : Nat) (execution_time : F),
      (dmonitoring_eval_frame n REG_SCALE fl exp ex t1 t2 { sA with is_rhd := b } buf w h st uv
          c).map (fun p => dmonitoring_publish flag bytes_of frame_id p.1 execution_time p.2.output)
        = (dmonitoring_eval_frame n REG_SCALE fl exp ex t1 t2 sA buf w h st uv c).map
          (fun p => dmonitoring_publish flag bytes_of frame_id p.1 execution_time p.2.output)) := by
  refine ⟨fun ds o => by rw [hout], fun t1 t2 u1 u2 => ?_, ?_, ?_, ?_⟩
  · rw [hout]
    exact dmonitoring_decode_clock REG_SCALE fl exp sB.output t1 t2 u1 u2
  · intro n1 n2 ex1 ex2 t1 t2 u1 u2 buf1 buf2 w1 h1 st1 uv1 w2 h2 st2 uv2 c1 c2 rA rB sA2 sB2
      hA hB hsame
    obtain ⟨a1, _, ha2, hdA⟩ := dmonitoring_eval_frame_eq_some n1 REG_SCALE fl exp ex1 t1 t2 sA sA2
      rA buf1 w1 h1 st1 uv1 c1 hA
    obtain ⟨b1, _, hb2, hdB⟩ := dmonitoring_eval_frame_eq_some n2 REG_SCALE fl exp ex2 u1 u2 sB sB2
      rB buf2 w2 h2 st2 uv2 c2 hB
    have eA : sA2.output = ex1 (engine_input a1) := by rw [ha2]
    have eB : sB2.output = ex2 (engine_input b1) := by rw [hb2]
    rw [← eA] at hdA
    rw [← eB, ← hsame] at hdB
    have hmap := dmonitoring_decode_clock REG_SCALE fl exp sA2.output t1 t2 u1 u2
    rw [hdA, hdB] at hmap
    simp only [Option.map_some', Option.some.injEq, Prod.mk.injEq] at hmap
    exact hmap
  · intro n ex t1 t2 buf w h st uv c b
    exact dmonitoring_eval_frame_is_rhd n REG_SCALE fl exp ex t1 t2 sA buf w h st uv c b
  · intro n ex t1 t2 buf w h st uv c b flag bytes_of frame_id execution_time
    rw [dmonitoring_eval_frame_is_rhd, Option.map_map]
    rfl

/-- Witness for C11: two states with the same 84-element output vector and
different flag, calibration storage and scratch buffer decode alike. -/
theorem decode_is_pure_witness :
    parse_driver_data (1 / 4 : ℚ) binary32_round (fun x => x + 1) DriverStateResult.zero
        (List.replicate 84 (1 : ℚ)) 41
      = parse_driver_data (1 / 4 : ℚ) binary32_round (fun x => x + 1) DriverStateResult.zero
        ({ is_rhd := true, net_input_buf := [2], calib := [3], output := List.replicate 84 1,
           m := { calib_len := 1, image_len := 1 } } : DMonitoringModelState ℚ).output 41 :=
  (decode_is_pure (1 / 4 : ℚ) binary32_round (fun x => x + 1)
    { is_rhd := false, net_input_buf := [], calib := [], output := List.replicate 84 1,
      m := { calib_len := 0, image_len := 0 } }
    { is_rhd := true, net_input_buf := [2], calib := [3], output := List.replicate 84 1,
      m := { calib_len := 1, image_len := 1 } } rfl).1 DriverStateResult.zero 41

/-! ## C17: what the two clock readings enclose -/

theorem foldl_append_singleton {α β : Type} (f : α → β) :
    ∀ (l : List α) (tr : List β),
      l.foldl (fun tr i => tr ++ [f i]) tr = tr ++ l.map f
  | [], tr => by simp only [List.foldl_nil, List.map_nil, List.append_nil]
  | x :: xs, tr => by
    rw [List.foldl_cons, foldl_append_singleton f xs, List.map_cons, List.append_assoc]
    rfl

/-- The steps of lines 102–108 in order. -/
theorem dmonitoring_eval_frame_events_eq (CALIB_LEN : Nat) :
    dmonitoring_eval_frame_events CALIB_LEN
      = Event.millis_since_boot :: Event.addImage (MODEL_WIDTH * MODEL_HEIGHT) ::
          ((List.range CALIB_LEN).map Event.calib_write
            ++ [Event.execute, Event.millis_since_boot]) := by
  unfold dmonitoring_eval_frame_events
  simp only [foldl_append_singleton, List.append_assoc, List.cons_append, List.nil_append]

theorem immediately_followed_end (a b : Event) :
    ∀ l : List Event, immediately_followed a b (l ++ [a, b]) = true
  | [] => by simp [immediately_followed]
  | [x] => by simp [immediately_followed]
  | x :: y :: rest => by
    have ih := immediately_followed_end a b (y :: rest)
    simp only [List.cons_append] at ih ⊢
    simp only [immediately_followed, ih, Bool.or_true]

theorem immediately_followed_no_left (a b : Event) :
    ∀ (l : List Event) (z : Event), (∀ x ∈ l, x ≠ a) →
      immediately_followed a b (l ++ [z]) = false
  | [], z, _ => rfl
  | [x], z, h => by
    have hx : x ≠ a := h x (List.mem_singleton_self x)
    simp [immediately_followed, hx]
  | x :: y :: rest, z, h => by
    have hx : x ≠ a := h x (List.mem_cons_self _ _)
    have ih := immediately_followed_no_left a b (y :: rest) z
      (fun w hw => h w (List.mem_cons_of_mem _ hw))
    simp only [List.cons_append] at ih ⊢
    simp only [immediately_followed, ih, Bool.or_false, Bool.and_eq_false_imp, decide_eq_true_eq]
    intro hxa
    exact absurd hxa hx

/-- C17, as stated, fails: with three calibration values the steps between the two
clock readings are `addImage`, three calibration writes and `execute()`; the step
performed immediately before `execute()` is the last calibration write, not the
first clock reading, and even without calibration values `addImage` stands
between the first clock reading and `execute()`. -/
theorem first_clock_reading_not_adjacent :
    dmonitoring_eval_frame_events 3
      = [Event.millis_since_boot, Event.addImage (1440 * 960), Event.calib_write 0,
         Event.calib_write 1, Event.calib_write 2, Event.execute, Event.millis_since_boot] ∧
    immediately_followed Event.millis_since_boot Event.execute
      (dmonitoring_eval_frame_events 3) = false ∧
    immediately_followed (Event.calib_write 2) Event.execute
      (dmonitoring_eval_frame_events 3) = true ∧
    dmonitoring_eval_frame_events 0
      = [Event.millis_since_boot, Event.addImage (1440 * 960), Event.execute,
         Event.millis_since_boot] ∧
    immediately_followed Event.millis_since_boot Event.execute
      (dmonitoring_eval_frame_events 0) = false := by
  decide

/-- C17, amended. In `dmonitoring_eval_frame` the first clock reading is taken
before the tensor staging (`addImage`) and the calibration copy, which both
precede `execute()`; the second reading is taken immediately after `execute()`;
and a completed call reports `dsp_execution_time = (t2 − t1) / 1000`, the
millisecond delta expressed in seconds, so the reported time covers the staging,
the calibration copy and the execution. -/
theorem execution_time_spans_staging {F : Type} [Field F] (CALIB_LEN : Nat) (REG_SCALE : F)
    (fl exp : F → F) (execute : EngineInput F → List F) (t1 t2 : F)
    (s s2 : DMonitoringModelState F) (res : DMonitoringModelResult F)
    (stream_buf : List (Fin 256)) (width height stride uv_offset : Int) (calib : List F)
    (h : dmonitoring_eval_frame CALIB_LEN REG_SCALE fl exp execute t1 t2 s stream_buf width height
      stride uv_offset calib = some (res, s2)) :
    res.dsp_execution_time = (t2 - t1) / 1000 ∧
    dmonitoring_eval_frame_events CALIB_LEN
      = Event.millis_since_boot :: Event.addImage (MODEL_WIDTH * MODEL_HEIGHT) ::
          ((List.range CALIB_LEN).map Event.calib_write
            ++ [Event.execute, Event.millis_since_boot]) ∧
    immediately_followed Event.execute Event.millis_since_boot
      (dmonitoring_eval_frame_events CALIB_LEN) = true ∧
    immediately_followed Event.millis_since_boot (Event.addImage (MODEL_WIDTH * MODEL_HEIGHT))
      (dmonitoring_eval_frame_events CALIB_LEN) = true ∧
    immediately_followed Event.millis_since_boot Event.execute
      (dmonitoring_eval_frame_events CALIB_LEN) = false := by
  obtain ⟨s1, _, _, hdec⟩ := dmonitoring_eval_frame_eq_some CALIB_LEN REG_SCALE fl exp execute t1 t2
    s s2 res stream_buf width height stride uv_offset calib h
  rw [dmonitoring_decode_eq] at hdec
  simp only [Option.bind_eq_some, Option.some.injEq] at hdec
  obtain ⟨lhd, _, rhd, _, x82, _, x83, _, hres⟩ := hdec
  have hev := dmonitoring_eval_frame_events_eq CALIB_LEN
  refine ⟨by rw [← hres], hev, ?_, ?_, ?_⟩
  · have e : dmonitoring_eval_frame_events CALIB_LEN
        = (Event.millis_since_boot :: Event.addImage (MODEL_WIDTH * MODEL_HEIGHT) ::
            (List.range CALIB_LEN).map Event.calib_write)
          ++ [Event.execute, Event.millis_since_boot] := by
      rw [hev]
      rfl
    rw [e]
    exact immediately_followed_end _ _ _
  · rw [hev]
    simp only [immediately_followed, decide_True, Bool.and_self, Bool.true_or]
  · have hrest : immediately_followed Event.millis_since_boot Event.execute
        ((Event.addImage (MODEL_WIDTH * MODEL_HEIGHT) ::
            ((List.range CALIB_LEN).map Event.calib_write ++ [Event.execute]))
          ++ [Event.millis_since_boot]) = false := by
      apply immediately_followed_no_left
      intro x hx
      simp only [List.mem_cons, List.mem_append, List.mem_map, List.mem_singleton,
        List.not_mem_nil, or_false] at hx
      rcases hx with rfl | ⟨i, _, rfl⟩ | rfl <;> exact fun e => Event.noConfusion e
    have e : dmonitoring_eval_frame_events CALIB_LEN
        = Event.millis_since_boot :: ((Event.addImage (MODEL_WIDTH * MODEL_HEIGHT) ::
            ((List.range CALIB_LEN).map Event.calib_write ++ [Event.execute]))
          ++ [Event.millis_since_boot]) := by
      rw [hev]
      simp only [List.cons_append, List.append_assoc, List.nil_append]
    rw [e]
    simp only [List.cons_append] at hrest ⊢
    have hne : decide (Event.addImage (MODEL_WIDTH * MODEL_HEIGHT) = Event.execute) = false :=
      decide_eq_false (fun e => Event.noConfusion e)
    simp only [immediately_followed, hrest, hne, Bool.and_false, Bool.or_false]

/-- Witness for C17 (amended): one call on a 1440×960 frame with clock readings
0 and 1 reports `(1 − 0) / 1000`. -/
theorem execution_time_spans_staging_witness :
    ∃ (res : DMonitoringModelResult ℚ) (s2 : DMonitoringModelState ℚ),
      dmonitoring_eval_frame 0 (1 / 4 : ℚ) binary32_round (fun x => x + 1) (fun _ => List.replicate 84 0) 0 1
        { is_rhd := false, net_input_buf := [], calib := [], output := [],
          m := { calib_len := 0, image_len := 0 } }
        (List.replicate (1440 * 960) (7 : Fin 256)) 1440 960 1440 0 [] = some (res, s2) ∧
      res.dsp_execution_time = (1 - 0) / 1000 := by
  obtain ⟨res, s2, h⟩ := dmonitoring_eval_frame_total 0 (1 / 4 : ℚ) binary32_round (fun x => x + 1)
    (fun _ => List.replicate 84 0) 0 1
    { is_rhd := false, net_input_buf := [], calib := [], output := [],
      m := { calib_len := 0, image_len := 0 } }
    (List.replicate (1440 * 960) (7 : Fin 256)) 1440 960 1440 0 []
    (fun r c hr hc => by
      refine load_some_of_bounds _ _ ?_ ?_ <;>
      · simp only [ MODEL_HEIGHT, MODEL_WIDTH, Nat.cast_ofNat, sub_self, Int.zero_tdiv, zero_add,
          add_zero, List.length_replicate] at hr hc ⊢
        omega)
    (Nat.zero_le _) (Nat.zero_le _) (fun _ => List.length_replicate _ _)
  exact ⟨res, s2, h, (execution_time_spans_staging 0 (1 / 4 : ℚ) binary32_round (fun x => x + 1)
    (fun _ => List.replicate 84 0) 0 1 _ s2 res _ 1440 960 1440 0 [] h).1⟩

end DMonitoring
